import Mathlib

/-!
Verification development for the airline data-warehouse ETL cleaning engine
(`backend/etl_scripts/cleaning.py` and the per-entity cleaner scripts).

The Python string operations used by the cleaners (`str.strip`, `str.upper`,
`str.lower`, `str.title`, `str.capitalize`, `re.sub`, `str.replace`) are
embedded here on `List Char` / `String`, restricted to their ASCII behaviour,
which is the behaviour exercised by the pipeline's data.
-/

/-- ASCII lower/upper case pairs, modelling Python's case mapping on ASCII. -/
def caseTable : List (Char × Char) :=
  [('a', 'A'), ('b', 'B'), ('c', 'C'), ('d', 'D'), ('e', 'E'), ('f', 'F'),
   ('g', 'G'), ('h', 'H'), ('i', 'I'), ('j', 'J'), ('k', 'K'), ('l', 'L'),
   ('m', 'M'), ('n', 'N'), ('o', 'O'), ('p', 'P'), ('q', 'Q'), ('r', 'R'),
   ('s', 'S'), ('t', 'T'), ('u', 'U'), ('v', 'V'), ('w', 'W'), ('x', 'X'),
   ('y', 'Y'), ('z', 'Z')]

/-- Python `str.upper` on one ASCII character. -/
def upChar (c : Char) : Char :=
  match caseTable.find? (fun p => p.1 == c) with
  | some p => p.2
  | none => c

/-- Python `str.lower` on one ASCII character. -/
def lowChar (c : Char) : Char :=
  match caseTable.find? (fun p => p.2 == c) with
  | some p => p.1
  | none => c

/-- The whitespace class used by Python `str.strip` and the `\s` regex class. -/
def isWsChar (c : Char) : Bool := c.isWhitespace

theorem caseTable_up1 : ∀ p ∈ caseTable, upChar p.1 = p.2 := by decide
theorem caseTable_up2 : ∀ p ∈ caseTable, upChar p.2 = p.2 := by decide
theorem caseTable_low1 : ∀ p ∈ caseTable, lowChar p.1 = p.1 := by decide
theorem caseTable_low2 : ∀ p ∈ caseTable, lowChar p.2 = p.1 := by decide
theorem caseTable_alpha : ∀ p ∈ caseTable, p.1.isAlpha = true ∧ p.2.isAlpha = true := by decide
theorem caseTable_ws : ∀ p ∈ caseTable, isWsChar p.1 = false ∧ isWsChar p.2 = false := by decide

theorem upChar_of_none {c : Char} (h : caseTable.find? (fun q => q.1 == c) = none) :
    upChar c = c := by
  unfold upChar; rw [h]

theorem upChar_of_some {c : Char} {p : Char × Char}
    (h : caseTable.find? (fun q => q.1 == c) = some p) : upChar c = p.2 := by
  unfold upChar; rw [h]

theorem lowChar_of_none {c : Char} (h : caseTable.find? (fun q => q.2 == c) = none) :
    lowChar c = c := by
  unfold lowChar; rw [h]

theorem lowChar_of_some {c : Char} {p : Char × Char}
    (h : caseTable.find? (fun q => q.2 == c) = some p) : lowChar c = p.1 := by
  unfold lowChar; rw [h]

theorem upChar_upChar (c : Char) : upChar (upChar c) = upChar c := by
  cases h : caseTable.find? (fun q => q.1 == c) with
  | none => simp only [upChar_of_none h]
  | some p =>
      have hm := List.mem_of_find?_eq_some h
      rw [upChar_of_some h, caseTable_up2 p hm]

theorem lowChar_lowChar (c : Char) : lowChar (lowChar c) = lowChar c := by
  cases h : caseTable.find? (fun q => q.2 == c) with
  | none => simp only [lowChar_of_none h]
  | some p =>
      have hm := List.mem_of_find?_eq_some h
      rw [lowChar_of_some h, caseTable_low1 p hm]

theorem upChar_lowChar (c : Char) : upChar (lowChar c) = upChar c := by
  cases h : caseTable.find? (fun q => q.2 == c) with
  | none => simp only [lowChar_of_none h]
  | some p =>
      have hm := List.mem_of_find?_eq_some h
      have hc : p.2 = c := by
        have := List.find?_some h
        exact eq_of_beq this
      rw [lowChar_of_some h, caseTable_up1 p hm, ← hc, caseTable_up2 p hm]

theorem lowChar_upChar (c : Char) : lowChar (upChar c) = lowChar c := by
  cases h : caseTable.find? (fun q => q.1 == c) with
  | none => simp only [upChar_of_none h]
  | some p =>
      have hm := List.mem_of_find?_eq_some h
      have hc : p.1 = c := by
        have := List.find?_some h
        exact eq_of_beq this
      rw [upChar_of_some h, caseTable_low2 p hm, ← hc, caseTable_low1 p hm]

theorem isAlpha_upChar (c : Char) : (upChar c).isAlpha = c.isAlpha := by
  cases h : caseTable.find? (fun q => q.1 == c) with
  | none => simp only [upChar_of_none h]
  | some p =>
      have hm := List.mem_of_find?_eq_some h
      have hb := List.find?_some h
      have hc : p.1 = c := eq_of_beq hb
      rw [upChar_of_some h, (caseTable_alpha p hm).2, ← hc, (caseTable_alpha p hm).1]

theorem isAlpha_lowChar (c : Char) : (lowChar c).isAlpha = c.isAlpha := by
  cases h : caseTable.find? (fun q => q.2 == c) with
  | none => simp only [lowChar_of_none h]
  | some p =>
      have hm := List.mem_of_find?_eq_some h
      have hb := List.find?_some h
      have hc : p.2 = c := eq_of_beq hb
      rw [lowChar_of_some h, (caseTable_alpha p hm).1, ← hc, (caseTable_alpha p hm).2]

theorem isWs_upChar (c : Char) : isWsChar (upChar c) = isWsChar c := by
  cases h : caseTable.find? (fun q => q.1 == c) with
  | none => simp only [upChar_of_none h]
  | some p =>
      have hm := List.mem_of_find?_eq_some h
      have hb := List.find?_some h
      have hc : p.1 = c := eq_of_beq hb
      rw [upChar_of_some h, (caseTable_ws p hm).2, ← hc, (caseTable_ws p hm).1]

theorem isWs_lowChar (c : Char) : isWsChar (lowChar c) = isWsChar c := by
  cases h : caseTable.find? (fun q => q.2 == c) with
  | none => simp only [lowChar_of_none h]
  | some p =>
      have hm := List.mem_of_find?_eq_some h
      have hb := List.find?_some h
      have hc : p.2 = c := eq_of_beq hb
      rw [lowChar_of_some h, (caseTable_ws p hm).1, ← hc, (caseTable_ws p hm).2]

theorem lowChar_of_not_alpha {c : Char} (h : c.isAlpha = false) : lowChar c = c := by
  cases hf : caseTable.find? (fun q => q.2 == c) with
  | none => simp only [lowChar_of_none hf]
  | some p =>
      have hm := List.mem_of_find?_eq_some hf
      have hb := List.find?_some hf
      have hc : p.2 = c := eq_of_beq hb
      rw [← hc] at h
      rw [(caseTable_alpha p hm).2] at h
      cases h

theorem upChar_of_not_alpha {c : Char} (h : c.isAlpha = false) : upChar c = c := by
  cases hf : caseTable.find? (fun q => q.1 == c) with
  | none => simp only [upChar_of_none hf]
  | some p =>
      have hm := List.mem_of_find?_eq_some hf
      have hb := List.find?_some hf
      have hc : p.1 = c := eq_of_beq hb
      rw [← hc] at h
      rw [(caseTable_alpha p hm).1] at h
      cases h

theorem ws_not_alpha {c : Char} (h : isWsChar c = true) : c.isAlpha = false := by
  have : c = ' ' ∨ c = '\t' ∨ c = '\x0d' ∨ c = '\n' := by
    simp only [isWsChar, Char.isWhitespace] at h
    rcases Bool.or_eq_true_iff.mp h with h1 | h2
    · rcases Bool.or_eq_true_iff.mp h1 with h3 | h4
      · rcases Bool.or_eq_true_iff.mp h3 with h5 | h6
        · exact Or.inl (of_decide_eq_true h5)
        · exact Or.inr (Or.inl (of_decide_eq_true h6))
      · exact Or.inr (Or.inr (Or.inl (of_decide_eq_true h4)))
    · exact Or.inr (Or.inr (Or.inr (of_decide_eq_true h2)))
  rcases this with h | h | h | h <;> subst h <;> decide

theorem lowChar_eq_ws {c d : Char} (h : lowChar c = lowChar d) :
    isWsChar c = isWsChar d := by
  rw [← isWs_lowChar c, ← isWs_lowChar d, h]

theorem lowChar_eq_alpha {c d : Char} (h : lowChar c = lowChar d) :
    c.isAlpha = d.isAlpha := by
  rw [← isAlpha_lowChar c, ← isAlpha_lowChar d, h]

theorem lowChar_eq_of_not_alpha {c d : Char} (h : lowChar c = lowChar d)
    (hc : c.isAlpha = false) : c = d := by
  have hd : d.isAlpha = false := by rw [← lowChar_eq_alpha h]; exact hc
  calc c = lowChar c := (lowChar_of_not_alpha hc).symm
    _ = lowChar d := h
    _ = d := lowChar_of_not_alpha hd

theorem lowChar_eq_up {c d : Char} (h : lowChar c = lowChar d) : upChar c = upChar d := by
  rw [← upChar_lowChar c, ← upChar_lowChar d, h]

/-- Python `str.strip` (both-ends whitespace removal). -/
def pyStrip (l : List Char) : List Char :=
  ((l.dropWhile isWsChar).reverse.dropWhile isWsChar).reverse

/-- The regex substitution `re.sub(r"\s+", " ", s)`: every whitespace run
becomes a single space. -/
def collapseWs : List Char → List Char
  | [] => []
  | c :: cs =>
    if isWsChar c then ' ' :: collapseWs (cs.dropWhile isWsChar)
    else c :: collapseWs cs
termination_by l => l.length
decreasing_by
  · simp only [List.length_cons]
    exact Nat.lt_succ_of_le ((List.dropWhile_suffix isWsChar).length_le)
  · simp only [List.length_cons]; exact Nat.lt_succ_self _

/-- Python `str.title` scanner: a cased (here: ASCII alphabetic) character is
uppercased when the previous character is not cased, lowercased otherwise. -/
def pyTitleAux (b : Bool) : List Char → List Char
  | [] => []
  | c :: cs =>
    if c.isAlpha then (if b then lowChar c else upChar c) :: pyTitleAux true cs
    else c :: pyTitleAux false cs

/-- Python `str.title`. -/
def pyTitle (l : List Char) : List Char := pyTitleAux false l

/-- No leading and no trailing whitespace (`str.strip` fixpoint criterion). -/
def noEdgeWs (l : List Char) : Bool :=
  (match l.head? with | some c => !isWsChar c | none => true) &&
  (match l.getLast? with | some c => !isWsChar c | none => true)

/-- Every whitespace character is a single `' '` not followed by whitespace
(the fixpoint criterion of `collapseWs`). -/
def wsNorm : List Char → Bool
  | [] => true
  | [c] => !isWsChar c || c == ' '
  | c :: d :: rest => (!isWsChar c || (c == ' ' && !isWsChar d)) && wsNorm (d :: rest)

theorem dw_head {p : Char → Bool} :
    ∀ (l : List Char) {c : Char}, (l.dropWhile p).head? = some c → p c = false := by
  intro l
  induction l with
  | nil => intro c h; cases h
  | cons a l ih =>
      intro c h
      rw [List.dropWhile_cons] at h
      by_cases hp : p a = true
      · rw [if_pos hp] at h; exact ih h
      · rw [if_neg hp] at h
        cases h
        exact Bool.eq_false_iff.mpr hp

theorem dw_getLast {p : Char → Bool} :
    ∀ (l : List Char), l.dropWhile p ≠ [] → (l.dropWhile p).getLast? = l.getLast? := by
  intro l
  induction l with
  | nil => intro h; simp at h
  | cons a l ih =>
      intro h
      rw [List.dropWhile_cons] at h ⊢
      by_cases hp : p a = true
      · rw [if_pos hp] at h ⊢
        have hl : l ≠ [] := by
          intro he; subst he; simp [List.dropWhile] at h
        rw [ih h]
        cases l with
        | nil => exact absurd rfl hl
        | cons b l' => rw [List.getLast?_cons_cons]
      · rw [if_neg hp]

theorem dropWhile_eq_self_of_head {p : Char → Bool} (l : List Char)
    (h : ∀ c, l.head? = some c → p c = false) : l.dropWhile p = l := by
  cases l with
  | nil => rfl
  | cons a l =>
      rw [List.dropWhile_cons, if_neg]
      rw [h a rfl]
      simp

theorem pyStrip_eq_self {l : List Char} (h : noEdgeWs l = true) : pyStrip l = l := by
  unfold noEdgeWs at h
  rw [Bool.and_eq_true] at h
  obtain ⟨h1, h2⟩ := h
  unfold pyStrip
  have e1 : l.dropWhile isWsChar = l := by
    apply dropWhile_eq_self_of_head
    intro c hc
    rw [hc] at h1
    simpa using h1
  rw [e1]
  have e2 : l.reverse.dropWhile isWsChar = l.reverse := by
    apply dropWhile_eq_self_of_head
    intro c hc
    rw [List.head?_reverse] at hc
    rw [hc] at h2
    simpa using h2
  rw [e2, List.reverse_reverse]

theorem noEdgeWs_pyStrip (l : List Char) : noEdgeWs (pyStrip l) = true := by
  unfold pyStrip noEdgeWs
  rw [Bool.and_eq_true]
  constructor
  · rw [List.head?_reverse]
    cases hg : ((l.dropWhile isWsChar).reverse.dropWhile isWsChar).getLast? with
    | none => rfl
    | some c =>
        by_cases hne : (l.dropWhile isWsChar).reverse.dropWhile isWsChar = []
        · rw [hne] at hg; cases hg
        · rw [dw_getLast _ hne, List.getLast?_reverse] at hg
          have := dw_head _ hg
          simp [this]
  · rw [List.getLast?_reverse]
    cases hh : ((l.dropWhile isWsChar).reverse.dropWhile isWsChar).head? with
    | none => rfl
    | some c =>
        have := dw_head _ hh
        simp [this]

theorem collapseWs_nil : collapseWs [] = [] := by
  rw [collapseWs]

theorem collapseWs_cons (c : Char) (cs : List Char) :
    collapseWs (c :: cs) =
      if isWsChar c then ' ' :: collapseWs (cs.dropWhile isWsChar)
      else c :: collapseWs cs := by
  rw [collapseWs]

theorem collapseWs_head (l : List Char) :
    (collapseWs l).head? = l.head?.map (fun e => if isWsChar e then ' ' else e) := by
  cases l with
  | nil => rw [collapseWs_nil]; rfl
  | cons c cs =>
      rw [collapseWs_cons]
      by_cases h : isWsChar c = true
      · rw [if_pos h]; simp [h]
      · rw [if_neg h]
        simp only [Bool.not_eq_true] at h
        simp [h]

theorem collapseWs_ne_nil {l : List Char} (h : l ≠ []) : collapseWs l ≠ [] := by
  intro he
  have := collapseWs_head l
  rw [he] at this
  cases l with
  | nil => exact h rfl
  | cons c cs => simp at this

theorem wsNorm_cons_of_not_ws {c : Char} {r : List Char}
    (hc : isWsChar c = false) (hr : wsNorm r = true) : wsNorm (c :: r) = true := by
  cases r with
  | nil => simp [wsNorm, hc]
  | cons d rest => simp [wsNorm, hc, hr]

theorem wsNorm_collapseWs (l : List Char) : wsNorm (collapseWs l) = true := by
  cases l with
  | nil => rw [collapseWs_nil]; rfl
  | cons c cs =>
      rw [collapseWs_cons]
      by_cases h : isWsChar c = true
      · rw [if_pos h]
        have hr := wsNorm_collapseWs (cs.dropWhile isWsChar)
        cases hcol : collapseWs (cs.dropWhile isWsChar) with
        | nil => decide
        | cons d rest =>
            have hd : isWsChar d = false := by
              have hh := collapseWs_head (cs.dropWhile isWsChar)
              rw [hcol] at hh
              cases hdw : (cs.dropWhile isWsChar).head? with
              | none => rw [hdw] at hh; cases hh
              | some e =>
                  have he := dw_head _ hdw
                  rw [hdw] at hh
                  simp only [Option.map_some'] at hh
                  have : d = if isWsChar e then ' ' else e := by injection hh
                  rw [this, if_neg (by simp [he])]
                  exact he
            rw [hcol] at hr
            simp [wsNorm, hd, hr]
      · rw [if_neg h]
        have hr := wsNorm_collapseWs cs
        exact wsNorm_cons_of_not_ws (by simpa using h) hr
termination_by l.length
decreasing_by
  · exact Nat.lt_succ_of_le ((List.dropWhile_suffix isWsChar).length_le)
  · exact Nat.lt_succ_self _

theorem collapseWs_eq_self : ∀ {l : List Char}, wsNorm l = true → collapseWs l = l := by
  intro l
  induction l with
  | nil => intro _; rw [collapseWs_nil]
  | cons c cs ih =>
      intro h
      cases cs with
      | nil =>
          simp only [wsNorm] at h
          rw [collapseWs_cons]
          by_cases hc : isWsChar c = true
          · rw [if_pos hc]
            have hsp : c = ' ' := by
              rcases Bool.or_eq_true_iff.mp h with h1 | h2
              · rw [hc] at h1; cases h1
              · exact eq_of_beq h2
            rw [hsp]
            simp only [List.dropWhile_nil, collapseWs_nil]
          · rw [if_neg hc, collapseWs_nil]
      | cons d rest =>
          simp only [wsNorm, Bool.and_eq_true] at h
          obtain ⟨h1, h2⟩ := h
          have ihr := ih h2
          rw [collapseWs_cons]
          by_cases hc : isWsChar c = true
          · rw [if_pos hc]
            rcases Bool.or_eq_true_iff.mp h1 with hx | hx
            · rw [hc] at hx; cases hx
            · rw [Bool.and_eq_true] at hx
              obtain ⟨hsp, hd⟩ := hx
              have hsp' : c = ' ' := eq_of_beq hsp
              have hd' : isWsChar d = false := by simpa using hd
              rw [List.dropWhile_cons, if_neg (by simp [hd'])]
              rw [ihr, hsp']
          · rw [if_neg hc, ihr]

theorem collapseWs_idem (l : List Char) : collapseWs (collapseWs l) = collapseWs l :=
  collapseWs_eq_self (wsNorm_collapseWs l)

theorem collapseWs_getLast_not_ws :
    ∀ (l : List Char), (∀ d, l.getLast? = some d → isWsChar d = false) →
      ∀ d, (collapseWs l).getLast? = some d → isWsChar d = false := by
  intro l
  intro hl d hd
  match l with
  | [] => rw [collapseWs_nil] at hd; cases hd
  | [c] =>
      have hc := hl c rfl
      rw [collapseWs_cons, if_neg (by simp [hc])] at hd
      simp only [List.dropWhile_nil, collapseWs_nil] at hd
      cases hd
      exact hc
  | c :: e :: es =>
      have hlast : ∀ x, (e :: es).getLast? = some x → isWsChar x = false := by
        intro x hx
        apply hl
        rw [List.getLast?_cons_cons]
        exact hx
      rw [collapseWs_cons] at hd
      by_cases hc : isWsChar c = true
      · rw [if_pos hc] at hd
        have hne : (e :: es).dropWhile isWsChar ≠ [] := by
          intro hnil
          rw [List.dropWhile_eq_nil_iff] at hnil
          have hgl : ∃ x, (e :: es).getLast? = some x := by
            cases hgl' : (e :: es).getLast? with
            | none => simp at hgl'
            | some x => exact ⟨x, rfl⟩
          obtain ⟨x, hx⟩ := hgl
          have hxmem : x ∈ (e :: es) := by
            obtain ⟨hne2, hxg⟩ := List.mem_getLast?_eq_getLast (by rw [hx]; rfl)
            rw [hxg]
            exact List.getLast_mem hne2
          have := hnil x hxmem
          rw [hlast x hx] at this
          cases this
        have hlast2 : ∀ x, ((e :: es).dropWhile isWsChar).getLast? = some x →
            isWsChar x = false := by
          intro x hx
          rw [dw_getLast _ hne] at hx
          exact hlast x hx
        have hrec := collapseWs_getLast_not_ws ((e :: es).dropWhile isWsChar) hlast2
        have hcol_ne : collapseWs ((e :: es).dropWhile isWsChar) ≠ [] :=
          collapseWs_ne_nil hne
        cases hcol : collapseWs ((e :: es).dropWhile isWsChar) with
        | nil => exact absurd hcol hcol_ne
        | cons y ys =>
            rw [hcol, List.getLast?_cons_cons] at hd
            apply hrec
            rw [hcol]
            exact hd
      · rw [if_neg hc] at hd
        have hcol_ne : collapseWs (e :: es) ≠ [] := collapseWs_ne_nil (by simp)
        have hrec := collapseWs_getLast_not_ws (e :: es) hlast
        cases hcol : collapseWs (e :: es) with
        | nil => exact absurd hcol hcol_ne
        | cons y ys =>
            rw [hcol, List.getLast?_cons_cons] at hd
            apply hrec
            rw [hcol]
            exact hd
termination_by l => l.length
decreasing_by
  · calc ((e :: es).dropWhile isWsChar).length ≤ (e :: es).length :=
        (List.dropWhile_suffix isWsChar).length_le
      _ < (c :: e :: es).length := by simp
  · simp

theorem noEdgeWs_collapseWs {l : List Char} (h : noEdgeWs l = true) :
    noEdgeWs (collapseWs l) = true := by
  unfold noEdgeWs at h ⊢
  rw [Bool.and_eq_true] at h
  obtain ⟨h1, h2⟩ := h
  rw [Bool.and_eq_true]
  constructor
  · rw [collapseWs_head]
    cases hh : l.head? with
    | none => rfl
    | some c =>
        rw [hh] at h1
        have hc : isWsChar c = false := by simpa using h1
        simp [hc]
  · cases hg : (collapseWs l).getLast? with
    | none => rfl
    | some d =>
        have hl : ∀ x, l.getLast? = some x → isWsChar x = false := by
          intro x hx
          rw [hx] at h2
          simpa using h2
        have := collapseWs_getLast_not_ws l hl d hg
        simp [this]

theorem pyTitleAux_cons_def (b : Bool) (c : Char) (cs : List Char) :
    pyTitleAux b (c :: cs) =
      if c.isAlpha then (if b then lowChar c else upChar c) :: pyTitleAux true cs
      else c :: pyTitleAux false cs := rfl

theorem pyTitleAux_cons (b : Bool) (c : Char) (cs : List Char) :
    pyTitleAux b (c :: cs) =
      (if c.isAlpha then (if b then lowChar c else upChar c) else c) ::
        pyTitleAux c.isAlpha cs := by
  rw [pyTitleAux_cons_def]
  by_cases h : c.isAlpha = true
  · rw [if_pos h, if_pos h, h]
  · have h' : c.isAlpha = false := by simpa using h
    rw [if_neg h, if_neg h, h']

theorem titleHead_alpha (b : Bool) (c : Char) :
    (if c.isAlpha then (if b then lowChar c else upChar c) else c).isAlpha = c.isAlpha := by
  by_cases h : c.isAlpha = true
  · rw [if_pos h]
    cases b <;> simp [isAlpha_upChar, isAlpha_lowChar]
  · rw [if_neg h]

theorem titleHead_low (b : Bool) (c : Char) :
    lowChar (if c.isAlpha then (if b then lowChar c else upChar c) else c) = lowChar c := by
  by_cases h : c.isAlpha = true
  · rw [if_pos h]
    cases b <;> simp [lowChar_upChar, lowChar_lowChar]
  · rw [if_neg h]

theorem titleAux_low (b : Bool) (l : List Char) :
    (pyTitleAux b l).map lowChar = l.map lowChar := by
  induction l generalizing b with
  | nil => rfl
  | cons c cs ih =>
      rw [pyTitleAux_cons]
      simp only [List.map_cons, ih c.isAlpha, titleHead_low]

theorem titleAux_congr (b : Bool) :
    ∀ (l l2 : List Char), l.map lowChar = l2.map lowChar →
      pyTitleAux b l = pyTitleAux b l2 := by
  intro l
  induction l generalizing b with
  | nil =>
      intro l2 h
      cases l2 with
      | nil => rfl
      | cons y ys => simp at h
  | cons x xs ih =>
      intro l2 h
      cases l2 with
      | nil => simp at h
      | cons y ys =>
          simp only [List.map_cons, List.cons.injEq] at h
          obtain ⟨h1, h2⟩ := h
          rw [pyTitleAux_cons, pyTitleAux_cons]
          have ha : x.isAlpha = y.isAlpha := lowChar_eq_alpha h1
          rw [← ha, ih x.isAlpha ys h2]
          by_cases hx : x.isAlpha = true
          · rw [if_pos hx, if_pos hx]
            cases b
            · simp only [Bool.false_eq_true, if_false, lowChar_eq_up h1]
            · simp only [if_true, h1]
          · have hx' : x.isAlpha = false := by simpa using hx
            rw [if_neg hx, if_neg hx, lowChar_eq_of_not_alpha h1 hx']

theorem titleAux_idem (b : Bool) (l : List Char) :
    pyTitleAux b (pyTitleAux b l) = pyTitleAux b l := by
  induction l generalizing b with
  | nil => rfl
  | cons c cs ih =>
      rw [pyTitleAux_cons, pyTitleAux_cons, titleHead_alpha, ih c.isAlpha]
      by_cases h : c.isAlpha = true
      · rw [if_pos h, if_pos h]
        cases b
        · simp only [Bool.false_eq_true, if_false, upChar_upChar]
        · simp only [if_true, lowChar_lowChar]
      · rw [if_neg h, if_neg h]

theorem noEdgeWs_congr :
    ∀ {l l2 : List Char}, l.map lowChar = l2.map lowChar → noEdgeWs l = noEdgeWs l2 := by
  intro l l2 h
  unfold noEdgeWs
  have hh : l.head?.map lowChar = l2.head?.map lowChar := by
    rw [← List.head?_map, ← List.head?_map, h]
  have hg : l.getLast?.map lowChar = l2.getLast?.map lowChar := by
    rw [← List.getLast?_map, ← List.getLast?_map, h]
  congr 1
  · cases h1 : l.head? with
    | none =>
        rw [h1] at hh
        cases h2 : l2.head? with
        | none => rfl
        | some d => rw [h2] at hh; cases hh
    | some c =>
        rw [h1] at hh
        cases h2 : l2.head? with
        | none => rw [h2] at hh; cases hh
        | some d =>
            rw [h2] at hh
            simp only [Option.map_some', Option.some.injEq] at hh
            show (!isWsChar c) = (!isWsChar d)
            rw [lowChar_eq_ws hh]
  · cases h1 : l.getLast? with
    | none =>
        rw [h1] at hg
        cases h2 : l2.getLast? with
        | none => rfl
        | some d => rw [h2] at hg; cases hg
    | some c =>
        rw [h1] at hg
        cases h2 : l2.getLast? with
        | none => rw [h2] at hg; cases hg
        | some d =>
            rw [h2] at hg
            simp only [Option.map_some', Option.some.injEq] at hg
            show (!isWsChar c) = (!isWsChar d)
            rw [lowChar_eq_ws hg]

theorem lowChar_eq_space {c d : Char} (h : lowChar c = lowChar d) :
    (c == ' ') = (d == ' ') := by
  by_cases hw : isWsChar c = true
  · have : c = d := lowChar_eq_of_not_alpha h (ws_not_alpha hw)
    rw [this]
  · have hw2 : isWsChar d = false := by rw [← lowChar_eq_ws h]; simpa using hw
    have hc : (c == ' ') = false := by
      apply beq_eq_false_iff_ne.mpr
      intro he; subst he; simp [isWsChar] at hw
    have hd : (d == ' ') = false := by
      apply beq_eq_false_iff_ne.mpr
      intro he; subst he; simp [isWsChar] at hw2
    rw [hc, hd]

theorem wsNorm_congr :
    ∀ {l l2 : List Char}, l.map lowChar = l2.map lowChar → wsNorm l = wsNorm l2 := by
  intro l
  induction l with
  | nil =>
      intro l2 h
      cases l2 with
      | nil => rfl
      | cons y ys => simp at h
  | cons x xs ih =>
      intro l2 h
      cases l2 with
      | nil => simp at h
      | cons y ys =>
          simp only [List.map_cons, List.cons.injEq] at h
          obtain ⟨h1, h2⟩ := h
          cases xs with
          | nil =>
              cases ys with
              | nil =>
                  simp only [wsNorm]
                  rw [lowChar_eq_ws h1, lowChar_eq_space h1]
              | cons b bs => simp at h2
          | cons a as =>
              cases ys with
              | nil => simp at h2
              | cons b bs =>
                  have h3 : lowChar a = lowChar b := by
                    simp only [List.map_cons, List.cons.injEq] at h2
                    exact h2.1
                  simp only [wsNorm]
                  rw [lowChar_eq_ws h1, lowChar_eq_space h1, lowChar_eq_ws h3, ih h2]

theorem dw_titleAux (cs : List Char) :
    (pyTitleAux false cs).dropWhile isWsChar = pyTitleAux false (cs.dropWhile isWsChar) := by
  induction cs with
  | nil => rfl
  | cons c cs ih =>
      by_cases hw : isWsChar c = true
      · have ha : c.isAlpha = false := ws_not_alpha hw
        simp [pyTitleAux_cons, List.dropWhile_cons, hw, ha, ih]
      · have hcw : isWsChar c = false := by simpa using hw
        by_cases ha : c.isAlpha = true
        · have hup : isWsChar (upChar c) = false := by rw [isWs_upChar]; exact hcw
          simp [pyTitleAux_cons, List.dropWhile_cons, hcw, ha, hup]
        · have ha' : c.isAlpha = false := by simpa using ha
          simp [pyTitleAux_cons, List.dropWhile_cons, hcw, ha']

theorem titleAux_collapseWs (b : Bool) (w : List Char) :
    pyTitleAux b (collapseWs w) = collapseWs (pyTitleAux b w) := by
  cases w with
  | nil =>
      rw [collapseWs_nil]
      show ([] : List Char) = collapseWs []
      rw [collapseWs_nil]
  | cons c cs =>
      by_cases hw : isWsChar c = true
      · have ha : c.isAlpha = false := ws_not_alpha hw
        have hsp : (' ' : Char).isAlpha = false := by decide
        have hspw : isWsChar ' ' = true := by decide
        have hrec := titleAux_collapseWs false (cs.dropWhile isWsChar)
        simp [collapseWs_cons, pyTitleAux_cons, hw, ha, hsp, hspw, hrec, dw_titleAux]
      · have hcw : isWsChar c = false := by simpa using hw
        have hrec := titleAux_collapseWs c.isAlpha cs
        by_cases ha : c.isAlpha = true
        · have hups : isWsChar (if b then lowChar c else upChar c) = false := by
            cases b
            · simpa [isWs_upChar] using hcw
            · simpa [isWs_lowChar] using hcw
          rw [ha] at hrec
          simp [collapseWs_cons, pyTitleAux_cons, hcw, ha, hups, hrec]
        · have ha' : c.isAlpha = false := by simpa using ha
          rw [ha'] at hrec
          simp [collapseWs_cons, pyTitleAux_cons, hcw, ha', hrec]
termination_by w.length
decreasing_by
  · exact Nat.lt_succ_of_le ((List.dropWhile_suffix isWsChar).length_le)
  · exact Nat.lt_succ_self _

/-- Python `str.replace(old, new)`: left-to-right, non-overlapping substring
replacement. An empty `old` is returned unchanged (the cleaners only ever call
this with a nonempty `old`). -/
def pyReplace (pat rep : List Char) : List Char → List Char
  | [] => []
  | c :: cs =>
    if _hpre : pat ≠ [] ∧ pat.isPrefixOf (c :: cs) then
      rep ++ pyReplace pat rep ((c :: cs).drop pat.length)
    else c :: pyReplace pat rep cs
termination_by l => l.length
decreasing_by
  · have hlen : 1 ≤ pat.length := by
      cases hp : pat with
      | nil => exact absurd hp _hpre.1
      | cons a as => simp
    simp only [List.length_drop, List.length_cons]
    omega
  · simp

theorem pyReplace_nil (pat rep : List Char) : pyReplace pat rep [] = [] := by
  rw [pyReplace]

theorem pyReplace_cons (pat rep : List Char) (c : Char) (cs : List Char) :
    pyReplace pat rep (c :: cs) =
      if pat ≠ [] ∧ pat.isPrefixOf (c :: cs) then
        rep ++ pyReplace pat rep ((c :: cs).drop pat.length)
      else c :: pyReplace pat rep cs := by
  rw [pyReplace]
  by_cases h : pat ≠ [] ∧ pat.isPrefixOf (c :: cs)
  · rw [dif_pos h, if_pos h]
  · rw [dif_neg h, if_neg h]

theorem pyReplace_low {pat rep : List Char} (hrel : rep.map lowChar = pat.map lowChar) :
    ∀ l : List Char, (pyReplace pat rep l).map lowChar = l.map lowChar := by
  intro l
  match l with
  | [] => rw [pyReplace_nil]
  | c :: cs =>
      rw [pyReplace_cons]
      by_cases h : pat ≠ [] ∧ pat.isPrefixOf (c :: cs)
      · rw [if_pos h]
        have hpre : pat <+: (c :: cs) := List.isPrefixOf_iff_prefix.mp h.2
        have hsplit : pat ++ (c :: cs).drop pat.length = (c :: cs) :=
          List.prefix_iff_eq_append.mp hpre
        have ih := pyReplace_low hrel ((c :: cs).drop pat.length)
        rw [List.map_append, ih, hrel, ← List.map_append, hsplit]
      · rw [if_neg h]
        have ih := pyReplace_low hrel cs
        simp only [List.map_cons, ih]
termination_by l => l.length
decreasing_by
  · have hlen : 1 ≤ pat.length := by
      cases hp : pat with
      | nil => exact absurd hp h.1
      | cons a as => simp
    simp only [List.length_drop, List.length_cons]
    omega
  · simp

theorem pyReplace_of_no_occ {pat rep : List Char} (hne : pat ≠ []) :
    ∀ l : List Char, ¬ pat <:+: l → pyReplace pat rep l = l := by
  intro l
  match l with
  | [] => intro _; rw [pyReplace_nil]
  | c :: cs =>
      intro hinf
      rw [pyReplace_cons]
      rw [if_neg ?side]
      case side =>
        intro hcon
        exact hinf (List.isPrefixOf_iff_prefix.mp hcon.2).isInfix
      have hcs : ¬ pat <:+: cs := by
        intro hc
        apply hinf
        obtain ⟨s, t, hst⟩ := hc
        exact ⟨c :: s, t, by rw [← hst]; rfl⟩
      rw [pyReplace_of_no_occ hne cs hcs]
termination_by l => l.length
decreasing_by
  simp

/-- The ASCII apostrophe, as `Char.ofNat 39`. -/
def aposChar : Char := Char.ofNat 39

/-- The regex word-character class `\w` (ASCII). -/
def isWordChar (c : Char) : Bool := c.isAlphanum || c == '_'

/-- True when the regex `\b` word boundary holds between an `S` and the rest. -/
def atBoundary : List Char → Bool
  | [] => true
  | e :: _ => !isWordChar e

/-- The substitution `re.sub(r"'S\b", "'s", s)` applied to titled names
(cleaning.py lines 252-253). -/
def fixApos : List Char → List Char
  | [] => []
  | [c] => [c]
  | c :: d :: rest =>
    if c == aposChar && d == 'S' && atBoundary rest then
      c :: 's' :: fixApos rest
    else c :: fixApos (d :: rest)

theorem fixApos_low : ∀ l : List Char, (fixApos l).map lowChar = l.map lowChar := by
  intro l
  match l with
  | [] => rfl
  | [c] => rfl
  | c :: d :: rest =>
      show (if c == aposChar && d == 'S' && atBoundary rest then
          c :: 's' :: fixApos rest
        else c :: fixApos (d :: rest)).map lowChar = _
      by_cases h : (c == aposChar && d == 'S' && atBoundary rest) = true
      · rw [if_pos h]
        have hd : d = 'S' := by
          have := h
          simp only [Bool.and_eq_true, beq_iff_eq] at this
          exact this.1.2
        subst hd
        have ih := fixApos_low rest
        simp only [List.map_cons, ih]
        constructor
      · rw [if_neg h]
        have ih := fixApos_low (d :: rest)
        simp only [List.map_cons] at ih ⊢
        rw [ih]

/-- The five small-word replacements of `fix_small_words`
(cleaning.py lines 255-261). -/
def smallWordsTable : List (List Char × List Char) :=
  [(" And ".data, " and ".data), (" Of ".data, " of ".data),
   (" The ".data, " the ".data), (" At ".data, " at ".data), (" In ".data, " in ".data)]

/-- Model of `fix_small_words`: sequentially `str.replace` each titled small word. -/
def fixSmallWords (l : List Char) : List Char :=
  smallWordsTable.foldl (fun acc p => pyReplace p.1 p.2 acc) l

theorem foldl_replace_low :
    ∀ (tbl : List (List Char × List Char)),
      (∀ p ∈ tbl, p.2.map lowChar = p.1.map lowChar) →
      ∀ l : List Char,
        (tbl.foldl (fun acc p => pyReplace p.1 p.2 acc) l).map lowChar = l.map lowChar := by
  intro tbl
  induction tbl with
  | nil => intro _ l; rfl
  | cons q qs ih =>
      intro h l
      simp only [List.foldl_cons]
      rw [ih (fun p hp => h p (List.mem_cons_of_mem q hp)) (pyReplace q.1 q.2 l),
        pyReplace_low (h q (List.mem_cons_self q qs)) l]

theorem fixSmallWords_low (l : List Char) :
    (fixSmallWords l).map lowChar = l.map lowChar := by
  unfold fixSmallWords
  apply foldl_replace_low
  decide

/-- The `AirportName` / `City` normalizer of the airports pipeline: strip, collapse
whitespace runs, `str.title`, apostrophe fix, small-word lowercasing
(cleaning.py lines 240-265). -/
def airportTextNormalize (s : String) : String :=
  ⟨fixSmallWords (fixApos (pyTitle (collapseWs (pyStrip s.data))))⟩

/-- The fixed country synonym table (cleaning.py lines 267-275). -/
def countryTable : List (String × String) :=
  [("Usa", "United States"), ("Us", "United States"), ("U.S.A.", "United States"),
   ("U.S.", "United States"), ("United States Of America", "United States"),
   ("Uk", "United Kingdom"), ("U.K.", "United Kingdom")]

/-- The pandas `Series.replace` over the country synonym table: an exact full
value match is replaced, anything else kept. -/
def countryRepl (s : String) : String :=
  match countryTable.find? (fun q => q.1 == s) with
  | some p => p.2
  | none => s

/-- The `Country` normalizer of the airports pipeline: strip, collapse, title,
small-word fix (no apostrophe fix is applied to Country), country synonyms
(cleaning.py lines 240-276). -/
def countryNormalize (s : String) : String :=
  countryRepl ⟨fixSmallWords (pyTitle (collapseWs (pyStrip s.data)))⟩

/-- The `airlinename` normalizer of the airlines pipeline: strip, `str.title`, then
collapse whitespace runs (cleaning.py lines 606-607). -/
def airlineNameNormalize (s : String) : String :=
  ⟨collapseWs (pyTitle (pyStrip s.data))⟩

/-- The alliance synonym map (cleaning.py lines 612-621). -/
def allianceTable : List (String × String) :=
  [("", "None"), ("nan", "None"), ("none", "None"), ("oneworld", "Oneworld"),
   ("sky team", "SkyTeam"), ("skyteam", "SkyTeam"), ("star alliance", "Star Alliance"),
   ("staralliance", "Star Alliance")]

/-- The closed set of valid alliance values (cleaning.py line 625). -/
def validAlliances : List String := ["Oneworld", "SkyTeam", "Star Alliance", "None"]

/-- The `alliance` normalizer of the airlines pipeline: fill missing with "None"
(missing cells arrive as the string "nan" after `astype(str)`), strip, map the
synonym table by exact value, coerce anything outside the closed set to "None"
(cleaning.py lines 609-628). Note: the source strips but does NOT lowercase. -/
def allianceNormalize (s : String) : String :=
  let t : String := ⟨pyStrip s.data⟩
  let m := match allianceTable.find? (fun q => q.1 == t) with
    | some p => p.2
    | none => t
  if validAlliances.contains m then m else "None"

theorem chain_noEdgeWs (x : List Char) :
    noEdgeWs (pyTitle (collapseWs (pyStrip x))) = true := by
  rw [show pyTitle (collapseWs (pyStrip x)) = pyTitleAux false (collapseWs (pyStrip x)) from rfl]
  rw [noEdgeWs_congr (titleAux_low false (collapseWs (pyStrip x)))]
  exact noEdgeWs_collapseWs (noEdgeWs_pyStrip x)

theorem chain_wsNorm (x : List Char) :
    wsNorm (pyTitle (collapseWs (pyStrip x))) = true := by
  rw [show pyTitle (collapseWs (pyStrip x)) = pyTitleAux false (collapseWs (pyStrip x)) from rfl]
  rw [wsNorm_congr (titleAux_low false (collapseWs (pyStrip x)))]
  exact wsNorm_collapseWs (pyStrip x)

theorem airportText_core_idem (x : List Char) :
    fixSmallWords (fixApos (pyTitle (collapseWs (pyStrip
      (fixSmallWords (fixApos (pyTitle (collapseWs (pyStrip x))))))))) =
    fixSmallWords (fixApos (pyTitle (collapseWs (pyStrip x)))) := by
  set y := pyTitle (collapseWs (pyStrip x)) with hy
  set w := fixSmallWords (fixApos y) with hw
  have hrel : w.map lowChar = y.map lowChar := by
    rw [hw, fixSmallWords_low, fixApos_low]
  have hS : pyStrip w = w := by
    apply pyStrip_eq_self
    rw [noEdgeWs_congr hrel]
    exact chain_noEdgeWs x
  have hC : collapseWs w = w := by
    apply collapseWs_eq_self
    rw [wsNorm_congr hrel]
    exact chain_wsNorm x
  have hT : pyTitle w = y := by
    show pyTitleAux false w = y
    rw [titleAux_congr false w y hrel, hy]
    show pyTitleAux false (pyTitleAux false (collapseWs (pyStrip x))) = _
    rw [titleAux_idem]
    rfl
  rw [hS, hC, hT]

/-- Claim C9 helper: the airport name/city normalizer is idempotent. -/
theorem airportTextNormalize_idem (s : String) :
    airportTextNormalize (airportTextNormalize s) = airportTextNormalize s := by
  unfold airportTextNormalize
  exact congrArg (fun l => (⟨l⟩ : String)) (airportText_core_idem s.data)

theorem countryBase_idem (x : List Char) :
    fixSmallWords (pyTitle (collapseWs (pyStrip
      (fixSmallWords (pyTitle (collapseWs (pyStrip x))))))) =
    fixSmallWords (pyTitle (collapseWs (pyStrip x))) := by
  set y := pyTitle (collapseWs (pyStrip x)) with hy
  set w := fixSmallWords y with hw
  have hrel : w.map lowChar = y.map lowChar := by
    rw [hw, fixSmallWords_low]
  have hS : pyStrip w = w := by
    apply pyStrip_eq_self
    rw [noEdgeWs_congr hrel]
    exact chain_noEdgeWs x
  have hC : collapseWs w = w := by
    apply collapseWs_eq_self
    rw [wsNorm_congr hrel]
    exact chain_wsNorm x
  have hT : pyTitle w = y := by
    show pyTitleAux false w = y
    rw [titleAux_congr false w y hrel, hy]
    show pyTitleAux false (pyTitleAux false (collapseWs (pyStrip x))) = _
    rw [titleAux_idem]
    rfl
  rw [hS, hC, hT]

theorem foldl_replace_eq_self {l : List Char} :
    ∀ (tbl : List (List Char × List Char)),
      (∀ p ∈ tbl, p.1 ≠ [] ∧ ¬ p.1 <:+: l) →
      tbl.foldl (fun acc p => pyReplace p.1 p.2 acc) l = l := by
  intro tbl
  induction tbl with
  | nil => intro _; rfl
  | cons q qs ih =>
      intro h
      simp only [List.foldl_cons]
      rw [pyReplace_of_no_occ (h q (List.mem_cons_self q qs)).1 l
        (h q (List.mem_cons_self q qs)).2]
      exact ih (fun p hp => h p (List.mem_cons_of_mem q hp))

theorem fixSmallWords_eq_self {l : List Char}
    (h : ∀ p ∈ smallWordsTable, p.1 ≠ [] ∧ ¬ p.1 <:+: l) : fixSmallWords l = l :=
  foldl_replace_eq_self smallWordsTable h

theorem countryNormalize_fix : ∀ p ∈ countryTable, countryNormalize p.2 = p.2 := by
  have hus : countryNormalize "United States" = "United States" := by
    have h1 : pyStrip "United States".data = "United States".data :=
      pyStrip_eq_self (by decide)
    have h2 : collapseWs "United States".data = "United States".data :=
      collapseWs_eq_self (by decide)
    have h3 : pyTitle "United States".data = "United States".data := by decide
    have h4 : fixSmallWords "United States".data = "United States".data :=
      fixSmallWords_eq_self (by decide)
    unfold countryNormalize
    rw [h1, h2, h3, h4]
    decide
  have huk : countryNormalize "United Kingdom" = "United Kingdom" := by
    have h1 : pyStrip "United Kingdom".data = "United Kingdom".data :=
      pyStrip_eq_self (by decide)
    have h2 : collapseWs "United Kingdom".data = "United Kingdom".data :=
      collapseWs_eq_self (by decide)
    have h3 : pyTitle "United Kingdom".data = "United Kingdom".data := by decide
    have h4 : fixSmallWords "United Kingdom".data = "United Kingdom".data :=
      fixSmallWords_eq_self (by decide)
    unfold countryNormalize
    rw [h1, h2, h3, h4]
    decide
  intro p hp
  fin_cases hp <;> first | exact hus | exact huk

/-- Claim C9 helper: the country normalizer is idempotent. -/
theorem countryNormalize_idem (s : String) :
    countryNormalize (countryNormalize s) = countryNormalize s := by
  cases hf : countryTable.find? (fun q => q.1 == (⟨fixSmallWords (pyTitle (collapseWs
      (pyStrip s.data)))⟩ : String)) with
  | some p =>
      have hp := List.mem_of_find?_eq_some hf
      have h1 : countryNormalize s = p.2 := by
        unfold countryNormalize countryRepl
        rw [hf]
      rw [h1]
      exact countryNormalize_fix p hp
  | none =>
      have h1 : countryNormalize s =
          ⟨fixSmallWords (pyTitle (collapseWs (pyStrip s.data)))⟩ := by
        unfold countryNormalize countryRepl
        rw [hf]
      rw [h1]
      unfold countryNormalize
      rw [show (⟨fixSmallWords (pyTitle (collapseWs (pyStrip s.data)))⟩ : String).data =
        fixSmallWords (pyTitle (collapseWs (pyStrip s.data))) from rfl]
      rw [countryBase_idem s.data]
      unfold countryRepl
      rw [hf]

/-- Claim C9 helper: the airline name normalizer is idempotent. -/
theorem airlineNameNormalize_idem (s : String) :
    airlineNameNormalize (airlineNameNormalize s) = airlineNameNormalize s := by
  unfold airlineNameNormalize
  apply congrArg (fun l => (⟨l⟩ : String))
  show collapseWs (pyTitle (pyStrip ((⟨collapseWs (pyTitle (pyStrip s.data))⟩ : String).data)))
      = collapseWs (pyTitle (pyStrip s.data))
  rw [show ((⟨collapseWs (pyTitle (pyStrip s.data))⟩ : String).data)
      = collapseWs (pyTitle (pyStrip s.data)) from rfl]
  set z := collapseWs (pyTitle (pyStrip s.data)) with hz
  have hrelT : (pyTitle (pyStrip s.data)).map lowChar = (pyStrip s.data).map lowChar :=
    titleAux_low false (pyStrip s.data)
  have hSz : pyStrip z = z := by
    apply pyStrip_eq_self
    rw [hz]
    apply noEdgeWs_collapseWs
    rw [noEdgeWs_congr hrelT]
    exact noEdgeWs_pyStrip s.data
  have hTz : pyTitle z = z := by
    show pyTitleAux false z = z
    rw [hz]
    rw [titleAux_collapseWs false (pyTitle (pyStrip s.data))]
    show collapseWs (pyTitleAux false (pyTitleAux false (pyStrip s.data))) = _
    rw [titleAux_idem]
    rfl
  have hCz : collapseWs z = z := by
    rw [hz]
    exact collapseWs_idem (pyTitle (pyStrip s.data))
  rw [hSz, hTz, hCz]

theorem allianceNormalize_mem (s : String) : allianceNormalize s ∈ validAlliances := by
  unfold allianceNormalize
  by_cases hc : validAlliances.contains
      (match allianceTable.find? (fun q => q.1 == (⟨pyStrip s.data⟩ : String)) with
        | some p => p.2
        | none => (⟨pyStrip s.data⟩ : String)) = true
  · rw [if_pos hc]
    exact List.elem_iff.mp hc
  · rw [if_neg hc]
    decide

theorem allianceNormalize_fix : ∀ v ∈ validAlliances, allianceNormalize v = v := by decide

/-- Claim C9 helper: the alliance normalizer is idempotent. -/
theorem allianceNormalize_idem (s : String) :
    allianceNormalize (allianceNormalize s) = allianceNormalize s :=
  allianceNormalize_fix _ (allianceNormalize_mem s)

/-!
Generic quarantine partitioner: the pandas idiom `df[~mask]` / `df[mask]` used
by every pipeline to split the working table on a row-wise boolean mask.
Rows are tagged with their original positional index, which is the row
identity the outputs inherit from the input frame.
-/

/-- Split `dfPartition bad l = (l[~bad], l[bad])`: the clean/quarantine split. -/
def dfPartition (bad : α → Bool) (l : List α) : List α × List α :=
  (l.filter (fun p => !(bad p)), l.filter bad)

/-- The three partition invariants of a clean/quarantine split of `inp`:
sizes add up, no row is in both outputs, and each output preserves the
relative order of `inp`. -/
def splitOk (cl q inp : List α) : Prop :=
  cl.length + q.length = inp.length ∧
  (∀ x, x ∈ cl → x ∉ q) ∧
  cl.Sublist inp ∧ q.Sublist inp

theorem length_filter_not_add (bad : α → Bool) (l : List α) :
    (l.filter (fun p => !(bad p))).length + (l.filter bad).length = l.length := by
  induction l with
  | nil => rfl
  | cons a l ih =>
      by_cases h : bad a = true
      · rw [List.filter_cons, List.filter_cons, if_neg (by simp [h]), if_pos (by simp [h])]
        simp only [List.length_cons, ← ih]
        omega
      · rw [List.filter_cons, List.filter_cons, if_pos (by simp [h]), if_neg (by simp [h])]
        simp only [List.length_cons, ← ih]
        omega

theorem dfPartition_splitOk (bad : α → Bool) (l : List α) :
    splitOk (dfPartition bad l).1 (dfPartition bad l).2 l := by
  refine ⟨length_filter_not_add bad l, ?_, List.filter_sublist l, List.filter_sublist l⟩
  intro x hx hq
  have h1 := (List.mem_filter.mp hx).2
  have h2 := (List.mem_filter.mp hq).2
  rw [h2] at h1
  cases h1

/-!
AIRPORTS pipeline (`run_airports_pipeline`, cleaning.py lines 36-449).
A raw CSV row; after pandas `astype(str)` a missing cell arrives as `"nan"`.
-/

structure AirportRow where
  airportKey : String
  airportName : String
  city : String
  country : String
deriving DecidableEq

/-- Key normalization: strip then uppercase (cleaning.py lines 242, 247). -/
def keyUpperNormalize (s : String) : String := ⟨(pyStrip s.data).map upChar⟩

/-- The TRANSFORMATION phase of the airports pipeline, per row
(cleaning.py lines 240-276). -/
def transformAirport (r : AirportRow) : AirportRow where
  airportKey := keyUpperNormalize r.airportKey
  airportName := airportTextNormalize r.airportName
  city := airportTextNormalize r.city
  country := countryNormalize r.country

/-- The `MISSING_STRINGS` sentinels (cleaning.py line 292). -/
def missingStrings : List String := ["", "nan", "none", "null", "NaN", "None", "Null"]

/-- Model of `is_missing`: strip then membership in the missing sentinels
(cleaning.py lines 294-296). -/
def isMissing (s : String) : Bool := missingStrings.contains ⟨pyStrip s.data⟩

/-- The regex `^[A-Z]{3}$` (cleaning.py line 299). -/
def airportKeyFormatOk (s : String) : Bool :=
  s.data.length == 3 && s.data.all Char.isUpper

/-- The airports quarantine mask, per row, on transformed values
(cleaning.py lines 298-315). -/
def airportBad (r : AirportRow) : Bool :=
  !((!isMissing r.airportKey) && airportKeyFormatOk r.airportKey) ||
    isMissing r.airportName || isMissing r.city || isMissing r.country

/-- The airports VALIDATION split `(clean_df, quarantine_df)` over index-tagged
transformed rows (cleaning.py lines 310-320). -/
def airportsSplit (rows : List AirportRow) :
    List (Nat × AirportRow) × List (Nat × AirportRow) :=
  dfPartition (fun p => airportBad p.2) (rows.map transformAirport).enum

/-!
AIRLINES pipeline (`run_airlines_pipeline`, cleaning.py lines 456-777).
-/

structure AirlineRow where
  airlinekey : String
  airlinename : String
  alliance : String
deriving DecidableEq

/-- The TRANSFORMATION phase of the airlines pipeline, per row: key strip+upper,
name strip/title/collapse, alliance normalization, then the two manual
overrides keyed on the transformed airline key (cleaning.py lines 605-641). -/
def transformAirline (r : AirlineRow) : AirlineRow :=
  let key := keyUpperNormalize r.airlinekey
  { airlinekey := key
    airlinename := airlineNameNormalize r.airlinename
    alliance :=
      if key == "VS" then "SkyTeam"
      else if key == "AZ" then "None"
      else allianceNormalize r.alliance }

/-- The regex `^[A-Z0-9]{2,3}$` (cleaning.py line 643). -/
def airlineKeyOk (s : String) : Bool :=
  (s.data.length == 2 || s.data.length == 3) &&
    s.data.all (fun c => c.isUpper || c.isDigit)

/-- The regex `^[A-Za-z0-9\s\.\-\&]+$` (cleaning.py line 644). -/
def airlineNameOk (s : String) : Bool :=
  !s.data.isEmpty &&
    s.data.all (fun c => c.isAlphanum || isWsChar c || c == '.' || c == '-' || c == '&')

/-- The airlines quarantine mask over index-tagged transformed rows, including
the keep-first duplicate-key rule (cleaning.py lines 643-649). -/
def airlineBad (t : List AirlineRow) (p : Nat × AirlineRow) : Bool :=
  !(airlineKeyOk p.2.airlinekey && airlineNameOk p.2.airlinename &&
    !((t.take p.1).any (fun x => x.airlinekey == p.2.airlinekey)))

/-- The airlines split `(df_clean, df_quarantine)` (cleaning.py lines 647-649). -/
def airlinesSplit (rows : List AirlineRow) :
    List (Nat × AirlineRow) × List (Nat × AirlineRow) :=
  dfPartition (airlineBad (rows.map transformAirline)) ((rows.map transformAirline).enum)

/-!
PASSENGERS cleaner (`clean_passengers_data`,
cleaning.py lines 783-846 / cleaners/staging_passengers.py).
-/

structure PassengerRow where
  passengerKey : String
  fullName : String
  email : String
  loyaltyStatus : String
deriving DecidableEq

/-- Numeric value of a digit string (Python `int` on digits). -/
def digitsToNat (l : List Char) : Nat :=
  l.foldl (fun acc c => 10 * acc + (c.toNat - 48)) 0

/-- Model of `remove_key_from_email`: delete every occurrence of the key's digit run and
of the same integer with leading zeros stripped (cleaning.py lines 791-800). -/
def removeKeyFromEmail (email : List Char) (rawKey : List Char) : List Char :=
  let keyDigits := rawKey.filter Char.isDigit
  if keyDigits.isEmpty then email
  else
    let e1 := pyReplace keyDigits [] email
    pyReplace (toString (digitsToNat keyDigits)).data [] e1

/-- Python `str.capitalize`: first character uppercased, the rest lowercased. -/
def pyCapitalize : List Char → List Char
  | [] => []
  | c :: cs => upChar c :: cs.map lowChar

/-- The TRANSFORMATION phase per passenger row (cleaning.py lines 802-809):
email lower/strip then key-digit removal (using the raw key), key strip,
name strip/collapse/title, loyalty strip / keep-letters / capitalize. -/
def transformPassenger (r : PassengerRow) : PassengerRow where
  passengerKey := ⟨pyStrip r.passengerKey.data⟩
  fullName := ⟨pyTitle (collapseWs (pyStrip r.fullName.data))⟩
  email := ⟨removeKeyFromEmail (pyStrip (r.email.data.map lowChar)) r.passengerKey.data⟩
  loyaltyStatus := ⟨pyCapitalize ((pyStrip r.loyaltyStatus.data).filter Char.isAlpha)⟩

/-- The regex `^[A-Za-z]+(?:\s+[A-Za-z]+)+$` as a four-state scanner:
0 = start, 1 = in first word, 2 = in whitespace gap, 3 = in a later word
(cleaning.py line 820). -/
def nameGo : Nat → List Char → Bool
  | s, [] => s == 3
  | 0, c :: rest => if c.isAlpha then nameGo 1 rest else false
  | 1, c :: rest =>
      if c.isAlpha then nameGo 1 rest else if isWsChar c then nameGo 2 rest else false
  | 2, c :: rest =>
      if c.isAlpha then nameGo 3 rest else if isWsChar c then nameGo 2 rest else false
  | 3, c :: rest =>
      if c.isAlpha then nameGo 3 rest else if isWsChar c then nameGo 2 rest else false
  | _, _ :: _ => false

def fullNameOk (s : String) : Bool := nameGo 0 s.data

def isLowerDigit (c : Char) : Bool := c.isLower || c.isDigit

/-- The regex `^[a-z0-9]+(?:[._][a-z0-9]+)*@example\.com$` as a scanner:
state 0 = an alphanumeric run must start, 1 = inside a run
(cleaning.py line 821). -/
def emailGo : Nat → List Char → Bool
  | 0, c :: rest => if isLowerDigit c then emailGo 1 rest else false
  | 1, c :: rest =>
      if isLowerDigit c then emailGo 1 rest
      else if c == '.' || c == '_' then emailGo 0 rest
      else if c == '@' then rest == "example.com".data
      else false
  | _, _ => false

def emailOk (s : String) : Bool := emailGo 0 s.data

/-- The `valid_statuses` set (cleaning.py line 808). -/
def validStatuses : List String := ["Bronze", "Silver", "Gold", "Platinum"]

/-- Row-wise validity: the `invalid_conditions` of cleaning.py lines 818-823,
negated. After `astype(str)` no field is null, so the `isnull` disjuncts of
lines 813 and 819 are identically false and the conditions reduce to the
regex/set checks. -/
def passengerOk (r : PassengerRow) : Bool :=
  fullNameOk r.fullName && emailOk r.email && validStatuses.contains r.loyaltyStatus

/-- Quarantine condition for the index-tagged ORIGINAL row `p`: a keep-first
duplicate of the (FullName, Email, LoyaltyStatus) triple among the transformed
rows, or a failed validity check (cleaning.py lines 813-826). -/
def passengerBadIdx (rows : List PassengerRow) (p : Nat × PassengerRow) : Bool :=
  let tr := rows.map transformPassenger
  let r := transformPassenger p.2
  ((tr.take p.1).any (fun x =>
      x.fullName == r.fullName && x.email == r.email && x.loyaltyStatus == r.loyaltyStatus)) ||
    !(passengerOk r)

/-- The index-level clean/quarantine split of the passengers cleaner. -/
def passengersIdxSplit (rows : List PassengerRow) :
    List (Nat × PassengerRow) × List (Nat × PassengerRow) :=
  dfPartition (passengerBadIdx rows) rows.enum

/-- Key regeneration (cleaning.py lines 831-832): surviving clean rows get the
synthetic keys `P{1000+n}` for `n = 1..len` in row order. -/
def reKey (l : List PassengerRow) : List PassengerRow :=
  l.enum.map (fun p => { p.2 with passengerKey := "P" ++ toString (1001 + p.1) })

/-- Model of `clean_passengers_data` (cleaning.py lines 783-846): quarantine keeps the
ORIGINAL rows of the invalid indices in index order; clean keeps the
transformed rows of the surviving indices in order, then regenerates keys.
(The source drops invalid labels from the whole transformed frame; because the
transformation is row-wise this equals transforming the surviving rows.) -/
def clean_passengers_data (rows : List PassengerRow) :
    List PassengerRow × List PassengerRow :=
  (reKey (((passengersIdxSplit rows).1.map Prod.snd).map transformPassenger),
    (passengersIdxSplit rows).2.map Prod.snd)

/-!
FLIGHTS pipeline (`run_flights_pipeline`, cleaning.py lines 866-1246).
The rapidfuzz scorer `fuzz.WRatio` is an external library function; it is
modelled as an abstract similarity `scorer : String → String → ℚ` on the
0-100 scale.
-/

/-- Model of `rapidfuzz.process.extractOne`: the best-scoring choice, first on ties;
`none` exactly when the choice list is empty. -/
def extractOne (scorer : String → String → ℚ) (q : String)
    (choices : List String) : Option (String × ℚ) :=
  choices.foldl
    (fun acc c =>
      match acc with
      | none => some (c, scorer q c)
      | some (b, s) => if scorer q c > s then some (c, scorer q c) else some (b, s))
    none

/-- Model of `fuzzy_fix` (cleaning.py lines 1058-1065): with a non-empty key list,
accept the best match iff it scores at least 85, else return the input;
with an empty/unavailable key list, return the input. -/
def fuzzy_fix (scorer : String → String → ℚ) (value : String)
    (validList : List String) : String :=
  if validList.isEmpty then value
  else
    match extractOne scorer value validList with
    | some (b, s) => if 85 ≤ s then b else value
    | none => value

/-- Model of `fix_flightkey_prefix` (cleaning.py lines 1112-1130): take the first two
alphanumeric characters uppercased; keep the key if that two-character code is
a known airline key; otherwise fuzzy-correct the code and, when the correction
changed it, prepend it to `flightkey[2:]` (the source drops `len(prefix) = 2`
characters of the original string). -/
def flightKeyFixup (scorer : String → String → ℚ) (flightkey : String)
    (airlinekeys : List String) : String :=
  let chars := flightkey.data.filter Char.isAlphanum
  if chars.length < 2 then flightkey
  else
    let pfx : String := ⟨(chars.take 2).map upChar⟩
    if !airlinekeys.isEmpty && airlinekeys.contains pfx then flightkey
    else if !airlinekeys.isEmpty then
      let np := fuzzy_fix scorer pfx airlinekeys
      if np ≠ pfx then np ++ (⟨flightkey.data.drop 2⟩ : String) else flightkey
    else flightkey

structure FlightRow where
  flightKey : String
  originAirportKey : String
  destinationAirportKey : String
  aircraftType : String
deriving DecidableEq

/-- The TRANSFORMATION phase per flight row (cleaning.py lines 1067-1135),
parameterized by the fetched reference key lists; an unavailable or empty
reference list (`None` / no rows) skips the corresponding correction. -/
def transformFlight (scorer : String → String → ℚ)
    (validAirports validAirlines : List String) (r : FlightRow) : FlightRow :=
  let fk := keyUpperNormalize r.flightKey
  let o := keyUpperNormalize r.originAirportKey
  let d := keyUpperNormalize r.destinationAirportKey
  let ac : String := ⟨collapseWs (pyTitle (pyStrip r.aircraftType.data))⟩
  { flightKey :=
      if validAirlines.isEmpty then fk else flightKeyFixup scorer fk validAirlines
    originAirportKey :=
      if validAirports.isEmpty then o else fuzzy_fix scorer o validAirports
    destinationAirportKey :=
      if validAirports.isEmpty then d else fuzzy_fix scorer d validAirports
    aircraftType := ac }

/-- The regex `^[A-Za-z0-9]{2}\d+$` (cleaning.py line 1148). -/
def flightKeyOk (s : String) : Bool :=
  match s.data with
  | a :: b :: rest => a.isAlphanum && b.isAlphanum && !rest.isEmpty && rest.all Char.isDigit
  | _ => false

/-- The regex `^[A-Za-z]{3}$` (cleaning.py lines 1149-1150). -/
def alpha3Ok (s : String) : Bool := s.data.length == 3 && s.data.all Char.isAlpha

/-- The flights quarantine mask over index-tagged transformed rows
(cleaning.py lines 1147-1156). -/
def flightBad (t : List FlightRow) (p : Nat × FlightRow) : Bool :=
  !(flightKeyOk p.2.flightKey && alpha3Ok p.2.originAirportKey &&
    alpha3Ok p.2.destinationAirportKey &&
    !(p.2.originAirportKey == p.2.destinationAirportKey) &&
    !((t.take p.1).any (fun x => x.flightKey == p.2.flightKey)))

/-- The flights split `(df_clean, df_quarantine)` (cleaning.py lines 1153-1156). -/
def flightsSplit (scorer : String → String → ℚ)
    (validAirports validAirlines : List String) (rows : List FlightRow) :
    List (Nat × FlightRow) × List (Nat × FlightRow) :=
  dfPartition (flightBad (rows.map (transformFlight scorer validAirports validAirlines)))
    ((rows.map (transformFlight scorer validAirports validAirlines)).enum)

/-!
FACT TRAVEL AGENCY pipeline (`run_facttravelagency_pipeline`,
cleaning.py lines 1252-1512). The CSV is read with `dtype=str`, so a present
cell is a string and a missing cell is NaN: cells are `Option String`.
-/

/-- Python `str(x)` on a cell: NaN prints as "nan". -/
def pyStr : Option String → String
  | none => "nan"
  | some s => s

/-- Python `str.isdigit` (ASCII model). -/
def pyIsDigit (s : String) : Bool := !s.data.isEmpty && s.data.all Char.isDigit

/-- Model of `pd.to_numeric(errors='coerce')` on one cell: strip, optional
sign, decimal digits with an optional fractional part; anything else is NaN
(`none`). (The pandas parser also accepts exponents; the pipeline's data and
the claims only involve plain decimals.) -/
def toNumericQ (s : String) : Option ℚ :=
  let t := pyStrip s.data
  let sign : ℚ := match t with
    | '-' :: _ => -1
    | _ => 1
  let t2 := match t with
    | '-' :: r => r
    | '+' :: r => r
    | r => r
  let intPart := t2.takeWhile Char.isDigit
  let rest := t2.dropWhile Char.isDigit
  match rest with
  | [] => if intPart.isEmpty then none else some (sign * (digitsToNat intPart : ℚ))
  | '.' :: fr =>
      if fr.all Char.isDigit && !(intPart.isEmpty && fr.isEmpty) then
        some (sign * ((digitsToNat intPart : ℚ) +
          (digitsToNat fr : ℚ) / ((10 : ℚ) ^ fr.length)))
      else none
  | _ => none

def toNumericO : Option String → Option ℚ
  | none => none
  | some s => toNumericQ s

/-- Truncation toward zero of a rational (pandas `astype(int)` on floats). -/
def truncQ (q : ℚ) : Int := Int.tdiv q.num (q.den : Int)

/-- The transaction-id backfill (cleaning.py lines 1364-1376), walking the
column while tracking the forward-fill (`ffill`) state of the COERCED original
column. For a digit id the coerced value itself is kept; for a non-digit id
the current forward-fill value is truncated to int and incremented — when that
value is still NaN (no coercible value has occurred yet), pandas
`astype(int)` raises, modelled as `.error`. The source also computes a
fallback `start_id = 40000` in a try/except, but never uses it. -/
def backfillGo (last : Option ℚ) : List (Option String) → Except Unit (List Int)
  | [] => .ok []
  | x :: xs =>
    let c := toNumericO x
    let last2 := match c with
      | some v => some v
      | none => last
    if pyIsDigit (pyStr x) then
      match c with
      | some v => (backfillGo last2 xs).map (fun l => truncQ v :: l)
      | none => .error ()
    else
      match last2 with
      | some p => (backfillGo last2 xs).map (fun l => (truncQ p + 1) :: l)
      | none => .error ()

/-- The full backfill: repaired ids re-rendered as strings
(`astype(int).astype(str)`, cleaning.py line 1375). -/
def backfill (xs : List (Option String)) : Except Unit (List String) :=
  (backfillGo none xs).map (fun l => l.map (fun v : Int => toString v))

/-- Round half to even at 2 decimals (pandas `Series.round(2)`). -/
def halfEven (x : ℚ) : Int :=
  let f := ⌊x⌋
  if x - f < 1 / 2 then f
  else if x - f > 1 / 2 then f + 1
  else if f % 2 = 0 then f else f + 1

def round2 (q : ℚ) : ℚ := (halfEven (q * 100) : ℚ) / 100

/-- The upper clip `clip(upper=99999999.99)` (cleaning.py line 1387). -/
def clipMoney (q : ℚ) : ℚ := if q > 99999999.99 then (99999999.99 : ℚ) else q

/-- Currency normalization (cleaning.py lines 1384-1387): strip `$`/`,`,
coerce to a number, round to 2 decimals, clip. -/
def normMoney (x : Option String) : Option ℚ :=
  (toNumericO (x.map (fun s => (⟨s.data.filter (fun c => !(c == '$' || c == ','))⟩ : String)))).map
    (fun q => clipMoney (round2 q))

def monthAbbrevs : List String :=
  ["Jan", "Feb", "Mar", "Apr", "May", "Jun", "Jul", "Aug", "Sep", "Oct", "Nov", "Dec"]

def leapYear (y : Nat) : Bool := (y % 4 == 0 && y % 100 != 0) || y % 400 == 0

def daysInMonth (y m : Nat) : Nat :=
  if m == 2 then (if leapYear y then 29 else 28)
  else if m == 4 || m == 6 || m == 9 || m == 11 then 30
  else 31

/-- Split a character list on a separator (the `str.split('/') `shape used by
the date parse). -/
def splitOnChar (sep : Char) : List Char → List (List Char)
  | [] => [[]]
  | c :: cs =>
    if c == sep then [] :: splitOnChar sep cs
    else
      match splitOnChar sep cs with
      | g :: gs => (c :: g) :: gs
      | [] => [[c]]

/-- Model of `datetime.strptime(val, '%Y/%b/%d')`: 4-digit year, titled English
month abbreviation, 1-2 digit day validated against the month length. -/
def primaryDateParse (s : String) : Option Int :=
  match splitOnChar '/' s.data with
  | [ys, ms, ds] =>
      if ys.length == 4 && ys.all Char.isDigit &&
          (ds.length == 1 || ds.length == 2) && ds.all Char.isDigit then
        match monthAbbrevs.indexOf? (⟨ms⟩ : String) with
        | some m0 =>
            let y := digitsToNat ys
            let d := digitsToNat ds
            if 1 ≤ d && d ≤ daysInMonth y (m0 + 1) then
              some ((y : Int) * 10000 + ((m0 : Int) + 1) * 100 + (d : Int))
            else none
        | none => none
      else none
  | _ => none

/-- Model of `to_standard_date` (cleaning.py lines 1393-1403): strip, dashes to
slashes, title-case, then the primary `%Y/%b/%d` parse; on failure the general
`pd.to_datetime` fallback — an external library parser, modelled as the
abstract parameter `fb`; on total failure NaN. -/
def toStandardDate (fb : String → Option Int) (x : Option String) : Option Int :=
  let val : String :=
    ⟨pyTitle ((pyStrip (pyStr x).data).map (fun c => if c == '-' then '/' else c))⟩
  match primaryDateParse val with
  | some d => some d
  | none => fb val

structure FactRawRow where
  transactionid : Option String
  transactiondate : Option String
  passengerid : Option String
  flightid : Option String
  ticketprice : Option String
  taxes : Option String
  baggagefees : Option String
  totalamount : Option String
deriving DecidableEq

structure FactRow where
  transactionid : String
  transactiondate : Option Int
  passengerid : Option String
  flightid : Option String
  ticketprice : Option ℚ
  taxes : Option ℚ
  baggagefees : Option ℚ
  totalamount : Option ℚ
deriving DecidableEq

/-- The TRANSFORMATION phase of the travel-agency pipeline (cleaning.py lines
1360-1405): transaction-id backfill (which can raise), currency normalization,
date normalization. -/
def facttravelTransform (fb : String → Option Int) (rows : List FactRawRow) :
    Except Unit (List FactRow) :=
  (backfill (rows.map (·.transactionid))).map (fun ids =>
    (ids.zip rows).map (fun p =>
      { transactionid := p.1
        transactiondate := toStandardDate fb p.2.transactiondate
        passengerid := p.2.passengerid
        flightid := p.2.flightid
        ticketprice := normMoney p.2.ticketprice
        taxes := normMoney p.2.taxes
        baggagefees := normMoney p.2.baggagefees
        totalamount := normMoney p.2.totalamount }))

/-- The regex `^4\d{4}$` (cleaning.py line 1416). -/
def tidOk (s : String) : Bool :=
  match s.data with
  | '4' :: rest => rest.length == 4 && rest.all Char.isDigit
  | _ => false

/-- The regex `^P[0-8]\d{4}$` with `na=False` (cleaning.py line 1417). -/
def pidOk : Option String → Bool
  | none => false
  | some s =>
      match s.data with
      | 'P' :: c :: rest =>
          decide ('0' ≤ c) && decide (c ≤ '8') && rest.length == 4 &&
            rest.all Char.isDigit
      | _ => false

/-- The regex `^[A-Z]{1,2}\d{1,5}$` with `na=False` (cleaning.py line 1418). -/
def fidOk : Option String → Bool
  | none => false
  | some s =>
      let ls := s.data.takeWhile Char.isUpper
      let rest := s.data.dropWhile Char.isUpper
      (ls.length == 1 || ls.length == 2) && !rest.isEmpty &&
        decide (rest.length ≤ 5) && rest.all Char.isDigit

def optQ (x : Option ℚ) : ℚ := x.getD 0

/-- The total-amount check (cleaning.py lines 1389-1390): the row sum of the
already-normalized components (`Series.sum` skips missing values, counting
them as 0), re-rounded to 2 decimals, must be EXACTLY equal to the re-rounded
total amount; a missing total never matches. -/
def totalsOk (r : FactRow) : Bool :=
  match r.totalamount with
  | none => false
  | some t => round2 (optQ r.ticketprice + optQ r.taxes + optQ r.baggagefees) == round2 t

/-- The travel-agency `invalid_mask` over index-tagged transformed rows
(cleaning.py lines 1411-1428): missing id cells, pattern failures, totals
mismatch, missing date, keep-first exact-row duplicates and keep-first
transaction-id duplicates. -/
def factBad (t : List FactRow) (p : Nat × FactRow) : Bool :=
  p.2.passengerid.isNone || p.2.flightid.isNone ||
  !(tidOk p.2.transactionid) || !(pidOk p.2.passengerid) || !(fidOk p.2.flightid) ||
  !(totalsOk p.2) || p.2.transactiondate.isNone ||
  ((t.take p.1).any (fun x => x == p.2)) ||
  ((t.take p.1).any (fun x => x.transactionid == p.2.transactionid))

/-- The travel-agency split `(df_cleaned, df_quarantine)`
(cleaning.py lines 1430-1431). -/
def facttravelSplit (t : List FactRow) :
    List (Nat × FactRow) × List (Nat × FactRow) :=
  dfPartition (factBad t) t.enum

/-!
LOAD loops (claim C10).
-/

/-- Airlines LOAD loop (cleaning.py lines 697-718): per-row upsert inside a
try/except; failures are collected with the row and the loop continues.
Returns `(successful, failed)` — exactly the counts the SUMMARY phase reports. -/
def airlinesLoad (up : α → Except ε Unit) : List α → Nat × List (α × ε)
  | [] => (0, [])
  | r :: rs =>
    match up r with
    | .ok _ => ((airlinesLoad up rs).1 + 1, (airlinesLoad up rs).2)
    | .error e => ((airlinesLoad up rs).1, (r, e) :: (airlinesLoad up rs).2)

/-- Travel-agency LOAD loop (cleaning.py lines 1456-1475): per-row upsert in a
try/except; successes counted (`loaded_count`), failures logged, loop
continues. Returns `(loaded, failures)`. -/
def facttravelLoad (up : α → Except ε Unit) : List α → Nat × Nat
  | [] => (0, 0)
  | r :: rs =>
    match up r with
    | .ok _ => ((facttravelLoad up rs).1 + 1, (facttravelLoad up rs).2)
    | .error _ => ((facttravelLoad up rs).1, (facttravelLoad up rs).2 + 1)

/-- Flights LOAD loop (cleaning.py lines 1199-1208): per-row upsert with NO
try/except — an exception propagates and aborts the whole loop. Returns how
many upserts were executed and the escaping exception, if any. -/
def flightsLoad (up : α → Except ε Unit) : List α → Nat × Option ε
  | [] => (0, none)
  | r :: rs =>
    match up r with
    | .error e => (0, some e)
    | .ok _ => ((flightsLoad up rs).1 + 1, (flightsLoad up rs).2)

/-- Model of `validate_booking_amount` (functions/functions.py lines 283-299): the
helper variant of the totals check, which allows an absolute tolerance
(default 0.01) instead of exact post-rounding equality. It is not part of the
travel-agency quarantine path in cleaning.py. -/
def validate_booking_amount (base_fare taxes fees total : ℚ) (tolerance : ℚ := 1 / 100) :
    Bool :=
  |base_fare + taxes + fees - total| ≤ tolerance

theorem extractOne_step_some (scorer : String → String → ℚ) (q : String) :
    ∀ (choices : List String) (acc : Option (String × ℚ)), acc.isSome = true →
      (choices.foldl
        (fun acc c =>
          match acc with
          | none => some (c, scorer q c)
          | some (b, s) => if scorer q c > s then some (c, scorer q c) else some (b, s))
        acc).isSome = true := by
  intro choices
  induction choices with
  | nil => intro acc h; exact h
  | cons c cs ih =>
      intro acc h
      rw [List.foldl_cons]
      apply ih
      match acc with
      | none => rfl
      | some (b, s) =>
          by_cases hgt : scorer q c > s
          · simp [hgt]
          · simp [hgt]

theorem extractOne_isSome {scorer : String → String → ℚ} {q : String}
    {choices : List String} (h : choices ≠ []) :
    (extractOne scorer q choices).isSome = true := by
  match choices with
  | [] => exact absurd rfl h
  | c :: cs =>
      unfold extractOne
      rw [List.foldl_cons]
      exact extractOne_step_some scorer q cs (some (c, scorer q c)) rfl

theorem extractOne_mem_aux (scorer : String → String → ℚ) (q : String) :
    ∀ (choices : List String) (acc : Option (String × ℚ)) (b : String) (s : ℚ),
      choices.foldl
        (fun acc c =>
          match acc with
          | none => some (c, scorer q c)
          | some (b, s) => if scorer q c > s then some (c, scorer q c) else some (b, s))
        acc = some (b, s) →
      acc = some (b, s) ∨ b ∈ choices := by
  intro choices
  induction choices with
  | nil => intro acc b s h; exact Or.inl h
  | cons c cs ih =>
      intro acc b s h
      rw [List.foldl_cons] at h
      rcases ih _ b s h with hacc | hmem
      · match acc, hacc with
        | none, hacc =>
            have : c = b := by
              have := hacc
              simp only [Option.some.injEq, Prod.mk.injEq] at this
              exact this.1
            exact Or.inr (this ▸ List.mem_cons_self c cs)
        | some (b0, s0), hacc =>
            dsimp only at hacc
            by_cases hgt : scorer q c > s0
            · rw [if_pos hgt] at hacc
              have : c = b := by
                simp only [Option.some.injEq, Prod.mk.injEq] at hacc
                exact hacc.1
              exact Or.inr (this ▸ List.mem_cons_self c cs)
            · rw [if_neg hgt] at hacc
              exact Or.inl hacc
      · exact Or.inr (List.mem_cons_of_mem c hmem)

theorem extractOne_mem {scorer : String → String → ℚ} {q b : String} {s : ℚ}
    {choices : List String} (h : extractOne scorer q choices = some (b, s)) :
    b ∈ choices := by
  rcases extractOne_mem_aux scorer q choices none b s h with hacc | hmem
  · cases hacc
  · exact hmem

theorem reKey_length (l : List PassengerRow) : (reKey l).length = l.length := by
  simp [reKey]

theorem reKey_keys (l : List PassengerRow) :
    (reKey l).map (fun r => r.passengerKey) =
      (List.range l.length).map (fun n => "P" ++ toString (1001 + n)) := by
  unfold reKey
  rw [List.map_map]
  have : ((fun r => r.passengerKey) ∘
      (fun p : Nat × PassengerRow => { p.2 with passengerKey := "P" ++ toString (1001 + p.1) }))
      = (fun n => "P" ++ toString (1001 + n)) ∘ Prod.fst := rfl
  rw [this, ← List.map_map, List.enum_map_fst]

theorem backfillGo_run (v : ℚ) :
    ∀ (bads : List (Option String)),
      (∀ x ∈ bads, pyIsDigit (pyStr x) = false ∧ toNumericO x = none) →
      backfillGo (some v) bads = .ok (bads.map (fun _ => truncQ v + 1)) := by
  intro bads
  induction bads with
  | nil => intro _; rfl
  | cons x xs ih =>
      intro h
      have hx := h x (List.mem_cons_self x xs)
      have ih' := ih (fun y hy => h y (List.mem_cons_of_mem x hy))
      simp [backfillGo, hx.1, hx.2, ih', Except.map]

theorem backfill_example_eval :
    backfill [some "4001", some "BAD", some "BAD", some "4005"] =
      .ok ["4001", "4002", "4002", "4005"] := by
  have h1 : toNumericQ "4001" = some 4001 := by
    have h : pyStrip "4001".data = "4001".data := by decide
    simp +decide [toNumericQ, h, List.takeWhile, List.dropWhile, digitsToNat]
  have h2 : toNumericQ "BAD" = none := by decide
  have h3 : toNumericQ "4005" = some 4005 := by
    have h : pyStrip "4005".data = "4005".data := by decide
    simp +decide [toNumericQ, h, List.takeWhile, List.dropWhile, digitsToNat]
  have t1 : truncQ 4001 = 4001 := by decide
  have t3 : truncQ 4005 = 4005 := by decide
  simp +decide [backfill, backfillGo, pyStr, pyIsDigit, toNumericO, h1, h2, h3, t1, t3,
    Except.map]

/-- Claim C2 (counterexample): on the spec's own example the backfill yields
`4002` for BOTH bad rows — the repaired values are not fed forward, so a run of
bad ids collapses to last-good+1 — and not the claimed `4002, 4003`. -/
theorem claim_C2_counterexample :
    backfill [some "4001", some "BAD", some "BAD", some "4005"] =
      .ok ["4001", "4002", "4002", "4005"] ∧
    (["4001", "4002", "4002", "4005"] : List String) ≠
      ["4001", "4002", "4003", "4005"] := by
  constructor
  · exact backfill_example_eval
  · decide

/-- Claim C2 (amended): every non-numeric transaction id is replaced by the
most recent preceding coercible id truncated to int plus 1; in particular a
whole run of consecutive bad ids after a digit id `s` all receive the SAME
value `int(s) + 1`, so `["4001","BAD","BAD","4005"]` produces
`["4001","4002","4002","4005"]`. -/
theorem claim_C2_backfill :
    (∀ (s : String) (v : ℚ) (bads : List (Option String)),
        pyIsDigit s = true → toNumericQ s = some v →
        (∀ x ∈ bads, pyIsDigit (pyStr x) = false ∧ toNumericO x = none) →
        backfill (some s :: bads) =
          .ok (toString (truncQ v) :: bads.map (fun _ => toString (truncQ v + 1)))) ∧
    backfill [some "4001", some "BAD", some "BAD", some "4005"] =
      .ok ["4001", "4002", "4002", "4005"] := by
  constructor
  · intro s v bads hd hv hb
    unfold backfill
    have hrun := backfillGo_run v bads hb
    simp [backfillGo, pyStr, toNumericO, hd, hv, hrun, Except.map]
  · exact backfill_example_eval

/-- Claim C2 witness: the general run lemma applied at `"4001"` followed by one
bad id. -/
theorem claim_C2_backfill_witness :
    backfill [some "4001", some "BAD"] = .ok ["4001", "4002"] := by
  have h1 : toNumericQ "4001" = some 4001 := by
    have h : pyStrip "4001".data = "4001".data := by decide
    simp +decide [toNumericQ, h, List.takeWhile, List.dropWhile, digitsToNat]
  have h := claim_C2_backfill.1 "4001" 4001 [some "BAD"] (by decide) h1 (by decide)
  rw [h]
  have t1 : truncQ 4001 = 4001 := by decide
  simp [t1]
  decide

/-- Claim C3: when the transaction-id column STARTS with a non-numeric value,
the forward-fill state is still NaN at that row, pandas `astype(int)` raises,
and the computed fallback `start_id = 40000` is never consulted (it is dead
code in the source): the backfill errors instead of succeeding. -/
theorem claim_C3_leading_bad_crash :
    backfill [some "BAD", some "4005"] = .error () ∧
    (∀ (x : Option String) (xs : List (Option String)),
        pyIsDigit (pyStr x) = false → toNumericO x = none →
        backfill (x :: xs) = .error ()) := by
  constructor
  · have h2 : toNumericQ "BAD" = none := by decide
    simp +decide [backfill, backfillGo, pyStr, pyIsDigit, toNumericO, h2, Except.map]
  · intro x xs h1 h2
    unfold backfill
    simp [backfillGo, h1, h2, Except.map]

/-- Witness for C3: the general leading-bad conjunct instantiated at the
concrete column starting with "BAD", with both hypotheses discharged by
evaluation. -/
theorem claim_C3_leading_bad_crash_witness :
    pyIsDigit (pyStr (some "BAD")) = false ∧ toNumericO (some "BAD") = none ∧
      backfill [some "BAD", some "4005"] = .error () :=
  ⟨by decide, by decide,
    (claim_C3_leading_bad_crash.2 (some "BAD") [some "4005"] (by decide) (by decide))⟩

/-- Claim C4: after the quarantine split the surviving clean passenger rows
receive the synthetic keys P1001, P1002, ... in row order (the map of output
keys is exactly the range-generated sequence starting at P1001), regardless of
the original key values. -/
theorem claim_C4_passenger_keys (rows : List PassengerRow) :
    (clean_passengers_data rows).1.map (fun r => r.passengerKey) =
      (List.range (clean_passengers_data rows).1.length).map
        (fun n => "P" ++ toString (1001 + n)) := by
  show (reKey _).map _ = (List.range (reKey _).length).map _
  rw [reKey_keys, reKey_length]

/-- The claim's spec-described alliance normalizer, which lowercases the
stripped value before the synonym lookup. Kept only for comparison with the
source's `allianceNormalize`, which strips but does NOT lowercase. -/
def allianceNormalizeSpec (s : String) : String :=
  let t : String := ⟨(pyStrip s.data).map lowChar⟩
  let m := match allianceTable.find? (fun q => q.1 == t) with
    | some p => p.2
    | none => t
  if validAlliances.contains m then m else "None"

/-- Claim C8 (counterexample): the source's alliance normalizer does not
lowercase, so the mixed-case synonym "Sky Team" is NOT recognized and is
coerced to "None", while the spec-described strip-and-lowercase normalizer
maps it to "SkyTeam". -/
theorem claim_C8_counterexample :
    allianceNormalize "Sky Team" = "None" ∧
    allianceNormalizeSpec "Sky Team" = "SkyTeam" ∧
    allianceNormalize "Sky Team" ≠ allianceNormalizeSpec "Sky Team" := by
  refine ⟨by decide, by decide, by decide⟩

/-- Claim C8 (amended): the alliance normalizer strips (without lowercasing)
and maps through the fixed synonym table, and always outputs a member of the
closed set {Oneworld, SkyTeam, Star Alliance, None}; the already-lowercase raw
value "sky team" maps to exactly "SkyTeam" and "banana" is coerced to "None". -/
theorem claim_C8_alliance :
    (∀ s : String, allianceNormalize s ∈ validAlliances) ∧
    allianceNormalize "sky team" = "SkyTeam" ∧
    allianceNormalize "banana" = "None" :=
  ⟨allianceNormalize_mem, by decide, by decide⟩

/-- Claim C9: the alliance, country and name normalizers (the airline-name and
airport-name/city text normalizers) are idempotent:
`normalize (normalize x) = normalize x` for every input string. -/
theorem claim_C9_idempotent :
    (∀ s : String, allianceNormalize (allianceNormalize s) = allianceNormalize s) ∧
    (∀ s : String, countryNormalize (countryNormalize s) = countryNormalize s) ∧
    (∀ s : String, airportTextNormalize (airportTextNormalize s) = airportTextNormalize s) ∧
    (∀ s : String, airlineNameNormalize (airlineNameNormalize s) = airlineNameNormalize s) :=
  ⟨allianceNormalize_idem, countryNormalize_idem, airportTextNormalize_idem,
    airlineNameNormalize_idem⟩

/-- Claim C6: with an empty/unavailable key set `fuzzy_fix` returns the input
unchanged; with a non-empty key set `extractOne` always yields a best match,
which is a member of the key set, and `fuzzy_fix` returns that best match iff
its similarity score is at least 85 (0-100 scale), the input otherwise. -/
theorem claim_C6_fuzzy :
    (∀ (scorer : String → String → ℚ) (v : String), fuzzy_fix scorer v [] = v) ∧
    (∀ (scorer : String → String → ℚ) (v : String) (keys : List String),
        keys ≠ [] → ∃ b s, extractOne scorer v keys = some (b, s)) ∧
    (∀ (scorer : String → String → ℚ) (v : String) (keys : List String) (b : String) (s : ℚ),
        extractOne scorer v keys = some (b, s) →
        b ∈ keys ∧ fuzzy_fix scorer v keys = if 85 ≤ s then b else v) := by
  refine ⟨fun scorer v => rfl, ?_, ?_⟩
  · intro scorer v keys h
    obtain ⟨p, hp⟩ := Option.isSome_iff_exists.mp (@extractOne_isSome scorer v keys h)
    exact ⟨p.1, p.2, hp⟩
  · intro scorer v keys b s h
    have hne : keys ≠ [] := by
      intro he
      subst he
      simp [extractOne] at h
    refine ⟨extractOne_mem h, ?_⟩
    unfold fuzzy_fix
    have hie : keys.isEmpty = false := by
      cases keys with
      | nil => exact absurd rfl hne
      | cons a l => rfl
    rw [hie]
    simp only [Bool.false_eq_true, if_false, h]

/-- A similarity scorer whose best score is exactly 84 against key "AB". -/
def scorer84 : String → String → ℚ := fun _ b => if b == "AB" then 84 else 0

/-- A similarity scorer whose best score is exactly 85 against key "AB". -/
def scorer85 : String → String → ℚ := fun _ b => if b == "AB" then 85 else 0

/-- Claim C6 witness: at the 85 boundary the best match is accepted; at 84 the
input is returned unchanged. -/
theorem claim_C6_fuzzy_witness :
    fuzzy_fix scorer84 "XY" ["AB", "CD"] = "XY" ∧
    fuzzy_fix scorer85 "XY" ["AB", "CD"] = "AB" := by
  constructor
  · have h := claim_C6_fuzzy.2.2 scorer84 "XY" ["AB", "CD"] "AB" 84 (by decide)
    rw [h.2]
    decide
  · have h := claim_C6_fuzzy.2.2 scorer85 "XY" ["AB", "CD"] "AB" 85 (by decide)
    rw [h.2]
    decide

/-- A similarity scorer giving prefix "JK" score 90 against airline key "JL". -/
def scorerJK : String → String → ℚ := fun a b => if a == "JK" && b == "JL" then 90 else 0

/-- Claim C7 (counterexample): an accepted correction replaces
`flightkey[:2]`, the first two CHARACTERS of the key, not the extracted
two-alphanumeric prefix: on "J-K123" (prefix "JK", corrected to "JL") the
source returns "JLK123", which retains the the third alphanumeric "K" and is
neither "JL123" nor "JL-123" as the claim's wording would produce. -/
theorem claim_C7_counterexample :
    flightKeyFixup scorerJK "J-K123" ["JL"] = "JLK123" ∧
    ("JLK123" : String) ≠ "JL123" ∧ ("JLK123" : String) ≠ "JL-123" := by
  refine ⟨by decide, by decide, by decide⟩

/-- Claim C7 (amended): for every flight key whose first two characters are
alphanumeric (so the extracted prefix coincides with them), `fix_flightkey_prefix`
uppercases those two characters as the prefix; if the prefix is a known
airline key the key is returned unchanged; only otherwise is fuzzy correction
attempted, and an accepted (changed) correction replaces the two prefix
characters while the remainder of the key — for canonical keys, the numeric
suffix — is retained verbatim. -/
theorem claim_C7_flightkey_fix :
    ∀ (scorer : String → String → ℚ) (keys : List String) (a b : Char) (rest : List Char),
      a.isAlphanum = true → b.isAlphanum = true → keys ≠ [] →
      flightKeyFixup scorer (⟨a :: b :: rest⟩ : String) keys =
        (if keys.contains (⟨[upChar a, upChar b]⟩ : String) then (⟨a :: b :: rest⟩ : String)
         else
           if fuzzy_fix scorer (⟨[upChar a, upChar b]⟩ : String) keys ≠
               (⟨[upChar a, upChar b]⟩ : String) then
             fuzzy_fix scorer (⟨[upChar a, upChar b]⟩ : String) keys ++ (⟨rest⟩ : String)
           else (⟨a :: b :: rest⟩ : String)) := by
  intro scorer keys a b rest ha hb hne
  have hie : keys.isEmpty = false := by
    cases keys with
    | nil => exact absurd rfl hne
    | cons x l => rfl
  unfold flightKeyFixup
  simp only [List.filter_cons, ha, hb, if_pos, if_true, hie, Bool.not_false, Bool.true_and,
    List.length_cons, List.take_succ_cons, List.take_zero, List.map_cons, List.map_nil,
    List.drop_succ_cons, List.drop_zero]
  all_goals rw [if_neg (by omega : ¬ ((rest.filter Char.isAlphanum).length + 1 + 1 < 2))]

/-- Claim C7 witness: on the canonical key "JK123" with airline keys ["JL"]
and a score of 90 the prefix is replaced and the numeric suffix kept:
"JL123". -/
theorem claim_C7_flightkey_fix_witness :
    flightKeyFixup scorerJK "JK123" ["JL"] = "JL123" := by
  have h := claim_C7_flightkey_fix scorerJK ["JL"] 'J' 'K' ['1', '2', '3']
    (by decide) (by decide) (by decide)
  have he : ("JK123" : String) = (⟨'J' :: 'K' :: ['1', '2', '3']⟩ : String) := rfl
  rw [he, h]
  decide

/-- Claim C10 (counterexample): in the flights LOAD loop a failing upsert on
the first row aborts the batch — zero upserts are executed for the remaining
rows even though the next row's upsert would succeed. -/
theorem claim_C10_counterexample :
    flightsLoad (fun b => if b then .ok () else .error ()) [false, true] = (0, some ()) ∧
    (fun (b : Bool) => if b then (.ok () : Except Unit Unit) else .error ()) true = .ok () := by
  constructor <;> rfl

/-- Claim C10 (amended): in the airlines and travel-agency LOAD loops a
per-row upsert failure is row-scoped — every row is attempted and
successes plus collected/counted failures always account for the whole batch,
which is exactly what SUMMARY reports; the flights LOAD loop instead aborts on
the first failing upsert, executing no further upserts. -/
theorem claim_C10_load_scoping :
    (∀ (α ε : Type) (up : α → Except ε Unit) (rows : List α),
        (airlinesLoad up rows).1 + (airlinesLoad up rows).2.length = rows.length) ∧
    (∀ (α ε : Type) (up : α → Except ε Unit) (rows : List α),
        (facttravelLoad up rows).1 + (facttravelLoad up rows).2 = rows.length) ∧
    (∀ (α ε : Type) (up : α → Except ε Unit) (r : α) (rs : List α) (e : ε),
        up r = .error e → flightsLoad up (r :: rs) = (0, some e)) := by
  refine ⟨?_, ?_, ?_⟩
  · intro α ε up rows
    induction rows with
    | nil => rfl
    | cons r rs ih =>
        cases hur : up r with
        | ok u => simp [airlinesLoad, hur]; omega
        | error e => simp [airlinesLoad, hur]; omega
  · intro α ε up rows
    induction rows with
    | nil => rfl
    | cons r rs ih =>
        cases hur : up r with
        | ok u => simp [facttravelLoad, hur]; omega
        | error e => simp [facttravelLoad, hur]; omega
  · intro α ε up r rs e h
    simp [flightsLoad, h]

/-- Claim C10 witness: the flights-abort clause at a concrete failing upsert. -/
theorem claim_C10_load_scoping_witness :
    flightsLoad (fun b => if b then .ok () else .error ()) [false] = (0, some ()) := by
  exact claim_C10_load_scoping.2.2 Bool Unit
    (fun b => if b then .ok () else .error ()) false [] () rfl

/-- A fallback date parser that parses nothing (the external `pd.to_datetime`
fallback is never consulted on the concrete rows below, whose dates match the
primary format). -/
def fbNone : String → Option Int := fun _ => none

/-- A travel-agency row with base 100.00, taxes 10.00, fees 5.00 and total
115.00, valid in every other respect. -/
def c5RowPass : FactRawRow :=
  { transactionid := some "40001", transactiondate := some "2024/Jan/15",
    passengerid := some "P12345", flightid := some "AA123",
    ticketprice := some "100.00", taxes := some "10.00",
    baggagefees := some "5.00", totalamount := some "115.00" }

/-- The same row with total 115.01. -/
def c5RowFail : FactRawRow :=
  { transactionid := some "40001", transactiondate := some "2024/Jan/15",
    passengerid := some "P12345", flightid := some "AA123",
    ticketprice := some "100.00", taxes := some "10.00",
    baggagefees := some "5.00", totalamount := some "115.01" }

def c5RowPassT : FactRow :=
  { transactionid := "40001", transactiondate := some 20240115,
    passengerid := some "P12345", flightid := some "AA123",
    ticketprice := some 100, taxes := some 10, baggagefees := some 5,
    totalamount := some 115 }

def c5RowFailT : FactRow :=
  { transactionid := "40001", transactiondate := some 20240115,
    passengerid := some "P12345", flightid := some "AA123",
    ticketprice := some 100, taxes := some 10, baggagefees := some 5,
    totalamount := some (11501 / 100) }

theorem c5_money_100 : normMoney (some "100.00") = some 100 := by
  have h1 : toNumericQ "100.00" = some 100 := by
    have h : pyStrip "100.00".data = "100.00".data := by decide
    simp +decide [toNumericQ, h, List.takeWhile, List.dropWhile, digitsToNat]
  simp +decide [normMoney, toNumericO, h1, round2, halfEven, clipMoney]
  norm_num

theorem c5_money_10 : normMoney (some "10.00") = some 10 := by
  have h1 : toNumericQ "10.00" = some 10 := by
    have h : pyStrip "10.00".data = "10.00".data := by decide
    simp +decide [toNumericQ, h, List.takeWhile, List.dropWhile, digitsToNat]
  simp +decide [normMoney, toNumericO, h1, round2, halfEven, clipMoney]
  norm_num

theorem c5_money_5 : normMoney (some "5.00") = some 5 := by
  have h1 : toNumericQ "5.00" = some 5 := by
    have h : pyStrip "5.00".data = "5.00".data := by decide
    simp +decide [toNumericQ, h, List.takeWhile, List.dropWhile, digitsToNat]
  simp +decide [normMoney, toNumericO, h1, round2, halfEven, clipMoney]
  norm_num

theorem c5_money_115 : normMoney (some "115.00") = some 115 := by
  have h1 : toNumericQ "115.00" = some 115 := by
    have h : pyStrip "115.00".data = "115.00".data := by decide
    simp +decide [toNumericQ, h, List.takeWhile, List.dropWhile, digitsToNat]
  simp +decide [normMoney, toNumericO, h1, round2, halfEven, clipMoney]
  norm_num

theorem c5_money_11501 : normMoney (some "115.01") = some (11501 / 100) := by
  have h1 : toNumericQ "115.01" = some (11501 / 100) := by
    have h : pyStrip "115.01".data = "115.01".data := by decide
    simp +decide [toNumericQ, h, List.takeWhile, List.dropWhile, digitsToNat]
    norm_num
  simp +decide [normMoney, toNumericO, h1, round2, halfEven, clipMoney]
  norm_num

theorem c5_backfill : backfill [some "40001"] = .ok ["40001"] := by
  have ht : toNumericQ "40001" = some 40001 := by
    have h : pyStrip "40001".data = "40001".data := by decide
    simp +decide [toNumericQ, h, List.takeWhile, List.dropWhile, digitsToNat]
  have t1 : truncQ 40001 = 40001 := by decide
  simp +decide [backfill, backfillGo, pyStr, pyIsDigit, toNumericO, ht, t1, Except.map]

theorem c5_pass_transform : facttravelTransform fbNone [c5RowPass] = .ok [c5RowPassT] := by
  have hd : toStandardDate fbNone (some "2024/Jan/15") = some 20240115 := by decide
  simp [facttravelTransform, c5_backfill, Except.map, c5RowPass, c5RowPassT, hd,
    c5_money_100, c5_money_10, c5_money_5, c5_money_115]

theorem c5_fail_transform : facttravelTransform fbNone [c5RowFail] = .ok [c5RowFailT] := by
  have hd : toStandardDate fbNone (some "2024/Jan/15") = some 20240115 := by decide
  simp [facttravelTransform, c5_backfill, Except.map, c5RowFail, c5RowFailT, hd,
    c5_money_100, c5_money_10, c5_money_5, c5_money_11501]

theorem c5_totals_pass : totalsOk c5RowPassT = true := by
  simp +decide [totalsOk, c5RowPassT, optQ]
  norm_num [round2, halfEven]

theorem c5_totals_fail : totalsOk c5RowFailT = false := by
  simp +decide [totalsOk, c5RowFailT, optQ]
  norm_num [round2, halfEven]

theorem c5_bad_pass : factBad [c5RowPassT] (0, c5RowPassT) = false := by
  have h := c5_totals_pass
  simp only [c5RowPassT] at h
  simp +decide [factBad, c5RowPassT, h]

theorem c5_bad_fail : factBad [c5RowFailT] (0, c5RowFailT) = true := by
  have h := c5_totals_fail
  simp only [c5RowFailT] at h
  simp +decide [factBad, c5RowFailT, h]

theorem c5_split_pass : facttravelSplit [c5RowPassT] = ([(0, c5RowPassT)], []) := by
  simp [facttravelSplit, dfPartition, List.enum, List.enumFrom, c5_bad_pass]

theorem c5_split_fail : facttravelSplit [c5RowFailT] = ([], [(0, c5RowFailT)]) := by
  simp [facttravelSplit, dfPartition, List.enum, List.enumFrom, c5_bad_fail]

/-- Claim C5: a travel-agency row passes the total-amount validation iff the
sum of its normalized ticket price, taxes and baggage fees, rounded to 2
decimals, EXACTLY equals the normalized total amount rounded to 2 decimals (no
tolerance); concretely, the row with 100.00 + 10.00 + 5.00 against total
115.00 is transformed and lands in the clean output, while the identical row
against total 115.01 lands in the quarantine output. -/
theorem claim_C5_total_validation :
    (∀ (tid : String) (td : Option Int) (pid fid : Option String) (p t b tot : ℚ),
        totalsOk ⟨tid, td, pid, fid, some p, some t, some b, some tot⟩ = true ↔
          round2 (p + t + b) = round2 tot) ∧
    facttravelTransform fbNone [c5RowPass] = .ok [c5RowPassT] ∧
    facttravelSplit [c5RowPassT] = ([(0, c5RowPassT)], []) ∧
    facttravelTransform fbNone [c5RowFail] = .ok [c5RowFailT] ∧
    facttravelSplit [c5RowFailT] = ([], [(0, c5RowFailT)]) := by
  refine ⟨?_, c5_pass_transform, c5_split_pass, c5_fail_transform, c5_split_fail⟩
  intro tid td pid fid p t b tot
  simp [totalsOk, optQ]

/-- Claim C1: for each of the five entity cleaners, the clean/quarantine split
is a partition of the (index-tagged) processed table: the clean and quarantine
sizes add up to the input size, no row is in both outputs, and each output
preserves the input's relative row order. For passengers this holds at the
level of original row indices and the final outputs have exactly those sizes;
for the travel-agency pipeline it holds for every table whose transformation
succeeded. -/
theorem claim_C1_partition :
    (∀ rows : List AirportRow,
        splitOk (airportsSplit rows).1 (airportsSplit rows).2
          ((rows.map transformAirport).enum)) ∧
    (∀ rows : List AirlineRow,
        splitOk (airlinesSplit rows).1 (airlinesSplit rows).2
          ((rows.map transformAirline).enum)) ∧
    (∀ (scorer : String → String → ℚ) (aps als : List String) (rows : List FlightRow),
        splitOk (flightsSplit scorer aps als rows).1 (flightsSplit scorer aps als rows).2
          ((rows.map (transformFlight scorer aps als)).enum)) ∧
    (∀ rows : List PassengerRow,
        splitOk (passengersIdxSplit rows).1 (passengersIdxSplit rows).2 rows.enum ∧
        (clean_passengers_data rows).1.length = (passengersIdxSplit rows).1.length ∧
        (clean_passengers_data rows).2.length = (passengersIdxSplit rows).2.length) ∧
    (∀ (fb : String → Option Int) (rows : List FactRawRow) (t : List FactRow),
        facttravelTransform fb rows = .ok t →
        splitOk (facttravelSplit t).1 (facttravelSplit t).2 t.enum) := by
  refine ⟨?_, ?_, ?_, ?_, ?_⟩
  · intro rows
    unfold airportsSplit
    exact dfPartition_splitOk _ _
  · intro rows
    unfold airlinesSplit
    exact dfPartition_splitOk _ _
  · intro scorer aps als rows
    unfold flightsSplit
    exact dfPartition_splitOk _ _
  · intro rows
    refine ⟨?_, ?_, ?_⟩
    · unfold passengersIdxSplit
      exact dfPartition_splitOk _ _
    · simp only [clean_passengers_data, reKey_length, List.length_map]
    · simp only [clean_passengers_data, List.length_map]
  · intro fb rows t _
    unfold facttravelSplit
    exact dfPartition_splitOk _ _

/-- Claim C1 witness: the travel-agency clause at a concrete one-row table
whose transformation succeeds. -/
theorem claim_C1_partition_witness :
    splitOk (facttravelSplit [c5RowPassT]).1 (facttravelSplit [c5RowPassT]).2
      ([c5RowPassT] : List FactRow).enum :=
  claim_C1_partition.2.2.2.2 fbNone [c5RowPass] [c5RowPassT] c5_pass_transform
